import Mathlib

/-!
The view computation of `show interfaces portchannel`: a shallow embedding of
`show_client/interface_portchannel_cli.go`.

* A Go `string` is a Lean `String`; Go compares strings byte by byte over
  UTF-8, which is the order of the code points, so `strLe` compares code points.
* A Go `map[string]V` is an association list `List (String × V)`.  The order
  of the list is the order in which `range` visits the map, which Go leaves
  unspecified; a snapshot is well formed when its keys are distinct
  (`keysNodup`).  Writing `m[k] = v` is `mapSet`.
* `GetInterfaceNameForDisplay` is an external alias resolver; every function
  that reaches it takes it as the parameter `G`.
-/

namespace ShowClient

/-! ## Go library functions used by the source -/

/-- Go `strings.HasPrefix(s, p)`. -/
def hasPrefix (s p : String) : Bool := p.data.isPrefixOf s.data

/-- Go `strings.TrimPrefix(s, p)`: `s` without the leading `p`, or `s` itself. -/
def trimPrefix (s p : String) : String :=
  if hasPrefix s p then ⟨s.data.drop p.data.length⟩ else s

/-- Go `strings.ToLower(s)`, on the letters `A`-`Z`.  Go lower-cases every cased
rune; the two agree on whether the result is `up` or `down`, the only values
the source compares it with, because the only runes that Go maps to one of the
letters d, n, o, p, u, w are these letters and their capitals. -/
def toLower (s : String) : String := ⟨s.data.map Char.toLower⟩

/-- Go `strings.Join(xs, sep)`. -/
def stringsJoin : List String → String → String
  | [], _ => ""
  | [a], _ => a
  | a :: b :: rest, sep => a ++ sep ++ stringsJoin (b :: rest) sep

/-- Lexicographic comparison of two code point sequences. -/
def lexLe : List Char → List Char → Bool
  | [], _ => true
  | _ :: _, [] => false
  | a :: as, b :: bs =>
    if a.toNat < b.toNat then true
    else if b.toNat < a.toNat then false
    else lexLe as bs

/-- Go `a <= b` on strings. -/
def strLe (a b : String) : Prop := lexLe a.data b.data = true

instance strLe_decidable : DecidableRel strLe := fun a b => by
  unfold strLe; exact inferInstance

/-- Go `sort.Strings(xs)`: `xs` in ascending order. -/
def sortStrings (xs : List String) : List String := xs.insertionSort strLe

/-! ## Tables -/

/-- One row of a table: field name to value. -/
abbrev Row := List (String × String)

/-- A table snapshot `map[string]interface{}`: row key to row. -/
abbrev Table := List (String × Row)

/-- The keys of a Go map, in iteration order. -/
def keys {V : Type} (m : List (String × V)) : List String := m.map Prod.fst

/-- A Go map holds each key once. -/
def keysNodup {V : Type} (m : List (String × V)) : Prop := (keys m).Nodup

instance keysNodup_decidable {V : Type} (m : List (String × V)) : Decidable (keysNodup m) := by
  unfold keysNodup; exact inferInstance

/-- Go `m[k] = v`: overwrite the entry at `k`, or add one. -/
def mapSet {V : Type} : List (String × V) → String → V → List (String × V)
  | [], k, v => [(k, v)]
  | (k0, v0) :: rest, k, v =>
    if k0 = k then (k, v) :: rest else (k0, v0) :: mapSet rest k v

/-- Modelled from the spec: the Field Accessor `GetFieldValueString(table, key,
default, field)` is declared outside the files at hand.  It looks up
`table[key][field]` and returns `default` unmodified when the row or the field
is absent. -/
def GetFieldValueString (table : Table) (key : String) (defaultValue : String)
    (field : String) : String :=
  match table.lookup key with
  | none => defaultValue
  | some row =>
    match row.lookup field with
    | none => defaultValue
    | some v => v

/-! ## teamShow struct and methods -/

/-- The aggregation context of one query. -/
structure teamShow where
  cfgPC : Table
  stateLag : Table
  applLag : Table
  stateLagMem : Table
  applLagMem : Table
  aliasMode : Bool

/-- Get the portchannel names from database: the keys of `cfgPC` that start
with `PortChannel`, in iteration order. -/
def getPortchannelNames (t : teamShow) : List String :=
  (keys t.cfgPC).filter (fun k => hasPrefix k "PortChannel")

/-- Get port channel status from database. -/
def getPortchannelStatus (t : teamShow) (pc : String) : String :=
  let active := GetFieldValueString t.stateLag pc "" "runner.active" == "true"
  let proto := "LACP"
  let proto := if active then proto ++ "(A)" else proto ++ "(I)"
  let suffix := "(N/A)"
  let oper := toLower (GetFieldValueString t.applLag pc "" "oper_status")
  let suffix :=
    if oper = "up" then "(Up)"
    else if oper = "down" then "(Dw)"
    else suffix
  proto ++ suffix

/-- The selection bit and the forwarding-plane status of one member. -/
def getPortchannelMemberStatus (t : teamShow) (pc member : String) : Bool × String :=
  let selected :=
    GetFieldValueString t.stateLagMem (pc ++ "|" ++ member) "" "runner.aggregator.selected"
      == "true"
  let status := GetFieldValueString t.applLagMem (pc ++ ":" ++ member) "" "status"
  (selected, status)

/-- The raw member names of `pc`, as the first loop of `getTeamdctl` collects
them (before `sort.Strings`). -/
def collectMembers (t : teamShow) (pc : String) : List String :=
  let pfx := pc ++ "|"
  ((keys t.stateLagMem).filter (fun k => hasPrefix k pfx)).map (fun k => trimPrefix k pfx)

/-- The name under which `getTeamdctl` shows the member `mem`. -/
def memberDisplay (G : String → String) (t : teamShow) (mem : String) : String :=
  if t.aliasMode then G mem else mem

/-- The body of the second loop of `getTeamdctl`: the entry of one member. -/
def renderMember (G : String → String) (t : teamShow) (pc mem : String) : String :=
  let (selected, status) := getPortchannelMemberStatus t pc mem
  let unsynced := status == "" ||
    (status == "enabled" && !selected) ||
    (status == "disabled" && selected)
  let display := memberDisplay G t mem
  let sb := ""
  let sb := sb ++ display
  let sb := sb ++ "("
  let sb := if selected then sb ++ "S" else sb ++ "D"
  let sb := if unsynced then sb ++ "*" else sb
  let sb := sb ++ ")"
  sb

/-- Get teams raw data from teamdctl. -/
def getTeamdctl (G : String → String) (t : teamShow) (pc : String) : List String :=
  let members := sortStrings (collectMembers t pc)
  members.map (fun mem => renderMember G t pc mem)

/-- Skip the PortChannel prefix and extract the team id.  Go compares byte
lengths; behind the ASCII prefix a name is longer than the prefix in bytes
exactly when it is longer in code points. -/
def getTeamID (team : String) : String :=
  if hasPrefix team "PortChannel" && decide (team.data.length > "PortChannel".data.length) then
    ⟨team.data.drop "PortChannel".data.length⟩
  else team

/-- The record literal that `getTeamshowResult` stores for `pc`. -/
def teamRecord (G : String → String) (t : teamShow) (pc : String) : Row :=
  let ports := getTeamdctl G t pc
  [("Team Dev", pc),
   ("Protocol", getPortchannelStatus t pc),
   ("Ports", stringsJoin ports " ")]

/-- Get teamshow results by combining the members of every port channel with
its status. -/
def getTeamshowResult (G : String → String) (t : teamShow) : List (String × Row) :=
  let names := getPortchannelNames t
  names.foldl (fun res pc => mapSet res (getTeamID pc) (teamRecord G t pc)) []

/-! ## Serialization and the query entry point -/

/-- The sixteen hexadecimal digits, as Go writes them in a JSON escape. -/
def hexDigit (n : Nat) : String :=
  if n < 10 then ⟨[Char.ofNat (48 + n)]⟩ else ⟨[Char.ofNat (87 + n)]⟩

/-- Go `encoding/json`, one code point of a string value (HTML escaping on, as
`json.Marshal` has it): the quote and the backslash get a backslash; backspace,
form feed, newline, carriage return and tab are written by their letter (the
first two since Go 1.22, `\u0008` and `\u000c` before); the other control
characters and the characters `<`, `>`, `&`, U+2028 and U+2029 get a `\u`
escape. -/
def jsonEscape (c : Char) : String :=
  if c.toNat = 34 then "\\\""
  else if c.toNat = 92 then "\\\\"
  else if c.toNat = 8 then "\\b"
  else if c.toNat = 12 then "\\f"
  else if c.toNat = 10 then "\\n"
  else if c.toNat = 13 then "\\r"
  else if c.toNat = 9 then "\\t"
  else if c.toNat < 32 ∨ c.toNat = 60 ∨ c.toNat = 62 ∨ c.toNat = 38 then
    "\\u00" ++ hexDigit (c.toNat / 16) ++ hexDigit (c.toNat % 16)
  else if c.toNat = 8232 then "\\u2028"
  else if c.toNat = 8233 then "\\u2029"
  else ⟨[c]⟩

/-- Go `encoding/json`: a string value between double quotes. -/
def jsonQuote (s : String) : String :=
  "\"" ++ s.data.foldr (fun c acc => jsonEscape c ++ acc) "" ++ "\""

/-- Go `encoding/json` writes the entries of a map in ascending order of the
keys. -/
def sortByKey {V : Type} (m : List (String × V)) : List (String × V) :=
  m.insertionSort (fun a b => strLe a.1 b.1)

/-- Go `json.Marshal` of one record, a `map[string]interface{}` whose values
are strings. -/
def marshalRecord (r : Row) : String :=
  "\x7b" ++
    stringsJoin ((sortByKey r).map (fun kv => jsonQuote kv.1 ++ ":" ++ jsonQuote kv.2)) "," ++
    "\x7d"

/-- Go `json.Marshal` of a `map[string]map[string]interface{}`; `none` is the
nil map, which is written `null`.  For this type of value the encoder has no
error to report. -/
def jsonMarshal : Option (List (String × Row)) → String
  | none => "null"
  | some m =>
    "\x7b" ++
      stringsJoin ((sortByKey m).map (fun kv => jsonQuote kv.1 ++ ":" ++ marshalRecord kv.2))
        "," ++
      "\x7d"

/-- The portchannel subcommand.  The table fetcher `GetMapFromQueries` and the
value of `GetInterfaceNamingMode()` are declared outside the files at hand and
are parameters.  The Go result `([]byte, error)` is a pair of options, `none`
for `nil`; `getTeamshowResult` builds its map with `make`, so the map handed to
the encoder is not nil. -/
def getInterfacePortchannel {ε : Type} (GetMapFromQueries : List (List String) → Except ε Table)
    (GetInterfaceNamingMode : String) (G : String → String) : Option String × Option ε :=
  match GetMapFromQueries [["CONFIG_DB", "PORTCHANNEL"]] with
  | .error err => (none, some err)
  | .ok cfgPC =>
    match GetMapFromQueries [["STATE_DB", "LAG_TABLE"]] with
    | .error err => (none, some err)
    | .ok stateLag =>
      match GetMapFromQueries [["APPL_DB", "LAG_TABLE"]] with
      | .error err => (none, some err)
      | .ok applLag =>
        match GetMapFromQueries [["STATE_DB", "LAG_MEMBER_TABLE"]] with
        | .error err => (none, some err)
        | .ok stateLagMember =>
          match GetMapFromQueries [["APPL_DB", "LAG_MEMBER_TABLE"]] with
          | .error err => (none, some err)
          | .ok applLagMember =>
            let ts : teamShow :=
              { cfgPC := cfgPC
                stateLag := stateLag
                applLag := applLag
                stateLagMem := stateLagMember
                applLagMem := applLagMember
                aliasMode := (GetInterfaceNamingMode == "alias") }
            let result := getTeamshowResult G ts
            (some (jsonMarshal (some result)), none)

/-! ## Vocabulary of the statements -/

/-- The flag suffix that `renderMember` writes after the display name. -/
def flagSuffix (selected unsynced : Bool) : String :=
  "(" ++ (if selected then "S" else "D") ++ (if unsynced then "*" else "") ++ ")"

/-- The `unsynced` expression of `getTeamdctl`. -/
def unsyncedBit (selected : Bool) (status : String) : Bool :=
  status == "" || (status == "enabled" && !selected) || (status == "disabled" && selected)

/-- The four ways to write `up` in lower-case and upper-case letters. -/
def upSpellings : List String := ["up", "Up", "uP", "UP"]

/-- The sixteen ways to write `down` in lower-case and upper-case letters. -/
def downSpellings : List String :=
  ["down", "dowN", "doWn", "doWN",
   "dOwn", "dOwN", "dOWn", "dOWN",
   "Down", "DowN", "DoWn", "DoWN",
   "DOwn", "DOwN", "DOWn", "DOWN"]

/-! ## The fixture of the repository test -/

/-- The five tables behind the expected value of `TestShowInterfacePortchannel`. -/
def fixture : teamShow where
  cfgPC := [("PortChannel101", []), ("PortChannel102", []), ("PortChannel103", [])]
  stateLag :=
    [("PortChannel101", [("runner.active", "true")]),
     ("PortChannel102", [("runner.active", "true")]),
     ("PortChannel103", [("runner.active", "false")])]
  applLag :=
    [("PortChannel101", [("oper_status", "up")]),
     ("PortChannel102", [("oper_status", "down")]),
     ("PortChannel103", [("oper_status", "up")])]
  stateLagMem :=
    [("PortChannel103|Ethernet8", [("runner.aggregator.selected", "false")]),
     ("PortChannel101|Ethernet0", [("runner.aggregator.selected", "true")]),
     ("PortChannel102|Ethernet0", [("runner.aggregator.selected", "false")]),
     ("PortChannel103|Ethernet0", [("runner.aggregator.selected", "true")])]
  applLagMem :=
    [("PortChannel101:Ethernet0", [("status", "enabled")]),
     ("PortChannel102:Ethernet0", [("status", "disabled")]),
     ("PortChannel103:Ethernet0", [("status", "enabled")]),
     ("PortChannel103:Ethernet8", [("status", "disabled")])]
  aliasMode := false

/-! ## Contexts of the counterexamples and witnesses -/

/-- One port channel with a selected member and a deselected one, neither of
which has an APPL_DB row. -/
def unsyncedCtx : teamShow where
  cfgPC := [("PortChannel1", [])]
  stateLag := []
  applLag := []
  stateLagMem :=
    [("PortChannel1|Ethernet4", []),
     ("PortChannel1|Ethernet0", [("runner.aggregator.selected", "true")])]
  applLagMem := []
  aliasMode := false

/-- An alias resolver under which the display names sort the other way round
than the raw names. -/
def aliasOf (mem : String) : String :=
  if mem = "Ethernet0" then "etp9" else if mem = "Ethernet8" then "etp1" else mem

/-- The fixture, queried in alias mode. -/
def aliasFixture : teamShow := { fixture with aliasMode := true }

/-- A configuration table whose keys include the bare prefix and a key without
the prefix. -/
def barePrefixCtx : teamShow where
  cfgPC := [("PortChannel", []), ("Ethernet0", []), ("PortChannel7", [])]
  stateLag := []
  applLag := []
  stateLagMem := []
  applLagMem := []
  aliasMode := false

/-- Two configuration keys with the same team identifier: `PortChannel` keeps
its name as identifier, and `PortChannelPortChannel` is cut down to it.  Only
the longer one has rows in the other tables. -/
def collideCtx : teamShow where
  cfgPC := [("PortChannel", []), ("PortChannelPortChannel", [])]
  stateLag := [("PortChannelPortChannel", [("runner.active", "true")])]
  applLag := []
  stateLagMem := [("PortChannelPortChannel|Ethernet0", [])]
  applLagMem := []
  aliasMode := false

/-- The fixture with one more configured port channel that no other table
knows. -/
def configOnlyCtx : teamShow :=
  { fixture with cfgPC := ("PortChannel104", []) :: fixture.cfgPC }

/-- The fixture with every table visited in the opposite order. -/
def reversedFixture : teamShow where
  cfgPC := fixture.cfgPC.reverse
  stateLag := fixture.stateLag.reverse
  applLag := fixture.applLag.reverse
  stateLagMem := fixture.stateLagMem.reverse
  applLagMem := fixture.applLagMem.reverse
  aliasMode := fixture.aliasMode

/-- The table fetcher that serves the five tables of a context. -/
def fetchFrom (t : teamShow) (q : List (List String)) : Except String Table :=
  if q = [["CONFIG_DB", "PORTCHANNEL"]] then .ok t.cfgPC
  else if q = [["STATE_DB", "LAG_TABLE"]] then .ok t.stateLag
  else if q = [["APPL_DB", "LAG_TABLE"]] then .ok t.applLag
  else if q = [["STATE_DB", "LAG_MEMBER_TABLE"]] then .ok t.stateLagMem
  else if q = [["APPL_DB", "LAG_MEMBER_TABLE"]] then .ok t.applLagMem
  else .error "unknown table"

/-- A table fetcher that serves the first `n` of the five tables from the
fixture and reports an error that names the table for the others. -/
def failingFetch (n : Nat) (q : List (List String)) : Except String Table :=
  if q = [["CONFIG_DB", "PORTCHANNEL"]] then
    (if 0 < n then .ok fixture.cfgPC else .error "CONFIG_DB down")
  else if q = [["STATE_DB", "LAG_TABLE"]] then
    (if 1 < n then .ok fixture.stateLag else .error "STATE_DB LAG_TABLE down")
  else if q = [["APPL_DB", "LAG_TABLE"]] then
    (if 2 < n then .ok fixture.applLag else .error "APPL_DB LAG_TABLE down")
  else if q = [["STATE_DB", "LAG_MEMBER_TABLE"]] then
    (if 3 < n then .ok fixture.stateLagMem else .error "STATE_DB LAG_MEMBER_TABLE down")
  else if q = [["APPL_DB", "LAG_MEMBER_TABLE"]] then
    (if 4 < n then .ok fixture.applLagMem else .error "APPL_DB LAG_MEMBER_TABLE down")
  else .error "unknown table"

/-- The five queries of `getInterfacePortchannel`, in the order of the calls. -/
def requiredTables : List (List (List String)) :=
  [[["CONFIG_DB", "PORTCHANNEL"]], [["STATE_DB", "LAG_TABLE"]], [["APPL_DB", "LAG_TABLE"]],
   [["STATE_DB", "LAG_MEMBER_TABLE"]], [["APPL_DB", "LAG_MEMBER_TABLE"]]]

/-- The fixture behind a configuration table without any port channel. -/
def noPortchannelCtx : teamShow :=
  { fixture with cfgPC := [("Ethernet0", [("mtu", "9100")])] }

/-- Scenario B: the port channel `PortChannel101`, active and up, with the one
member `Ethernet0`, selected and enabled. -/
def scenarioB : teamShow where
  cfgPC := [("PortChannel101", [])]
  stateLag := [("PortChannel101", [("runner.active", "true")])]
  applLag := [("PortChannel101", [("oper_status", "up")])]
  stateLagMem := [("PortChannel101|Ethernet0", [("runner.aggregator.selected", "true")])]
  applLagMem := [("PortChannel101:Ethernet0", [("status", "enabled")])]
  aliasMode := false

/-- The port channels `PortChannel9` and `PortChannel10`, known to the
configuration table only. -/
def nineTenCtx : teamShow where
  cfgPC := [("PortChannel9", []), ("PortChannel10", [])]
  stateLag := []
  applLag := []
  stateLagMem := []
  applLagMem := []
  aliasMode := false

/-- Port channels whose oper_status and runner.active are written in mixed
case, or with a value that is neither `up` nor `down`. -/
def mixedCaseCtx : teamShow where
  cfgPC := [("PortChannel1", []), ("PortChannel2", []), ("PortChannel3", [])]
  stateLag :=
    [("PortChannel1", [("runner.active", "true")]),
     ("PortChannel2", [("runner.active", "True")]),
     ("PortChannel3", [("runner.active", "true")])]
  applLag :=
    [("PortChannel1", [("oper_status", "UP")]),
     ("PortChannel2", [("oper_status", "DoWn")]),
     ("PortChannel3", [("oper_status", "upp")])]
  stateLagMem := []
  applLagMem := []
  aliasMode := false

/-! ## Strings -/

theorem append_left_cancel {a b c : String} (h : a ++ b = a ++ c) : b = c := by
  have h1 : (a ++ b).data = (a ++ c).data := by rw [h]
  simp only [String.data_append] at h1
  exact String.ext (List.append_cancel_left h1)

theorem empty_append (a : String) : "" ++ a = a := by
  apply String.ext; simp [String.data_append]

theorem append_assoc (a b c : String) : a ++ b ++ c = a ++ (b ++ c) := by
  apply String.ext; simp [String.data_append]

/-! ## One member entry -/

theorem renderMember_eq (G : String → String) (t : teamShow) (pc mem : String) :
    renderMember G t pc mem =
      memberDisplay G t mem ++
        flagSuffix (getPortchannelMemberStatus t pc mem).1
          (unsyncedBit (getPortchannelMemberStatus t pc mem).1
            (getPortchannelMemberStatus t pc mem).2) := by
  unfold renderMember flagSuffix unsyncedBit
  generalize getPortchannelMemberStatus t pc mem = p
  obtain ⟨sel, st⟩ := p
  simp only [empty_append]
  cases sel <;>
    cases (st == "" || (st == "enabled" && !false) || (st == "disabled" && false)) <;>
    cases (st == "" || (st == "enabled" && !true) || (st == "disabled" && true)) <;>
    simp [append_assoc]

theorem memberStatus_fst (t : teamShow) (pc mem : String) :
    (getPortchannelMemberStatus t pc mem).1 =
      decide (GetFieldValueString t.stateLagMem (pc ++ "|" ++ mem) ""
        "runner.aggregator.selected" = "true") := by
  unfold getPortchannelMemberStatus
  rw [Bool.eq_iff_iff]
  simp

theorem memberStatus_snd (t : teamShow) (pc mem : String) :
    (getPortchannelMemberStatus t pc mem).2 =
      GetFieldValueString t.applLagMem (pc ++ ":" ++ mem) "" "status" := rfl

theorem unsyncedBit_iff (selected : Bool) (status : String) :
    unsyncedBit selected status = true ↔
      (status = "" ∨ (status = "enabled" ∧ selected = false) ∨
        (status = "disabled" ∧ selected = true)) := by
  unfold unsyncedBit
  cases selected <;> simp

theorem star_mem_flagSuffix (selected unsynced : Bool) :
    '*' ∈ (flagSuffix selected unsynced).data ↔ unsynced = true := by
  cases selected <;> cases unsynced <;> decide

theorem GetFieldValueString_absent (table : Table) (key d field : String)
    (h : table.lookup key = none) : GetFieldValueString table key d field = d := by
  simp [GetFieldValueString, h]

/-- C1: for every entity E and member m, the entry that getTeamdctl renders for
m is the display name followed by a flag suffix, and that suffix holds the
unsynced marker `*` exactly when the APPL_DB status is empty, or is `enabled`
while the member is not selected, or is `disabled` while it is selected; an
empty status or a missing APPL_DB row always gives the marker. -/
theorem unsynced_marker_iff (G : String → String) (t : teamShow) (E m : String) :
    getTeamdctl G t E = (sortStrings (collectMembers t E)).map (renderMember G t E) ∧
    ∃ sfx : String,
      renderMember G t E m = memberDisplay G t m ++ sfx ∧
      (∀ s : String, renderMember G t E m = memberDisplay G t m ++ s → s = sfx) ∧
      ('*' ∈ sfx.data ↔
        (GetFieldValueString t.applLagMem (E ++ ":" ++ m) "" "status" = "" ∨
         (GetFieldValueString t.applLagMem (E ++ ":" ++ m) "" "status" = "enabled" ∧
           ¬ GetFieldValueString t.stateLagMem (E ++ "|" ++ m) ""
              "runner.aggregator.selected" = "true") ∨
         (GetFieldValueString t.applLagMem (E ++ ":" ++ m) "" "status" = "disabled" ∧
           GetFieldValueString t.stateLagMem (E ++ "|" ++ m) ""
              "runner.aggregator.selected" = "true"))) ∧
      (GetFieldValueString t.applLagMem (E ++ ":" ++ m) "" "status" = "" →
        '*' ∈ sfx.data) ∧
      (t.applLagMem.lookup (E ++ ":" ++ m) = none → '*' ∈ sfx.data) := by
  refine ⟨rfl, _, renderMember_eq G t E m, ?_, ?_, ?_, ?_⟩
  · intro s hs
    rw [renderMember_eq] at hs
    exact (append_left_cancel hs).symm
  · rw [star_mem_flagSuffix, unsyncedBit_iff, memberStatus_fst, memberStatus_snd]
    simp
  · intro h
    rw [star_mem_flagSuffix, unsyncedBit_iff, memberStatus_snd]
    exact Or.inl h
  · intro h
    rw [star_mem_flagSuffix, unsyncedBit_iff, memberStatus_snd]
    exact Or.inl (GetFieldValueString_absent _ _ _ _ h)


theorem flagSuffix_if (d : String) (sel uns : Bool) (P Q : Prop) [Decidable P] [Decidable Q]
    (hP : sel = true ↔ P) (hQ : uns = true ↔ Q) :
    d ++ flagSuffix sel uns =
      d ++ "(" ++ (if P then "S" else "D") ++ (if Q then "*" else "") ++ ")" := by
  unfold flagSuffix
  have h1 : (if sel = true then "S" else "D") = (if P then "S" else "D") := by
    by_cases hp : P
    · simp [hp, hP.mpr hp]
    · have : sel = false := by
        cases sel
        · rfl
        · exact absurd (hP.mp rfl) hp
      simp [hp, this]
  have h2 : (if uns = true then "*" else "") = (if Q then "*" else "") := by
    by_cases hq : Q
    · simp [hq, hQ.mpr hq]
    · have : uns = false := by
        cases uns
        · rfl
        · exact absurd (hQ.mp rfl) hq
      simp [hq, this]
  rw [h1, h2]
  simp only [append_assoc]

/-- C2, as stated, fails: a selected member without status renders as
`Ethernet0(S*)`, with the marker inside the brackets, and not as
`Ethernet0(S)*`; likewise `Ethernet4(D*)` for the deselected one. -/
theorem entry_marker_after_bracket_fails :
    getTeamdctl id unsyncedCtx "PortChannel1" = ["Ethernet0(S*)", "Ethernet4(D*)"] ∧
    renderMember id unsyncedCtx "PortChannel1" "Ethernet0" ≠ "Ethernet0" ++ "(S)" ++ "*" ∧
    renderMember id unsyncedCtx "PortChannel1" "Ethernet4" ≠ "Ethernet4" ++ "(D)" ++ "*" := by
  decide

/-- C2, amended: every entry of getTeamdctl is the display name, an opening
bracket, `S` when the member is selected and `D` when it is not, `*` when the
member is unsynced, and a closing bracket. -/
theorem member_entry_shape (G : String → String) (t : teamShow) (E m : String) :
    getTeamdctl G t E = (sortStrings (collectMembers t E)).map (renderMember G t E) ∧
    renderMember G t E m =
      memberDisplay G t m ++ "(" ++
        (if GetFieldValueString t.stateLagMem (E ++ "|" ++ m) ""
            "runner.aggregator.selected" = "true" then "S" else "D") ++
        (if GetFieldValueString t.applLagMem (E ++ ":" ++ m) "" "status" = "" ∨
            (GetFieldValueString t.applLagMem (E ++ ":" ++ m) "" "status" = "enabled" ∧
              ¬ GetFieldValueString t.stateLagMem (E ++ "|" ++ m) ""
                "runner.aggregator.selected" = "true") ∨
            (GetFieldValueString t.applLagMem (E ++ ":" ++ m) "" "status" = "disabled" ∧
              GetFieldValueString t.stateLagMem (E ++ "|" ++ m) ""
                "runner.aggregator.selected" = "true")
          then "*" else "") ++ ")" := by
  refine ⟨rfl, ?_⟩
  rw [renderMember_eq, memberStatus_fst, memberStatus_snd]
  apply flagSuffix_if
  · simp
  · rw [unsyncedBit_iff]; simp

/-- C10: the flag letter of the entry of m is `S` exactly when the field
runner.aggregator.selected of the STATE_DB row is the string `true`, and `D`
for every other value; whatever the APPL_DB member table holds, the letter is
the same. -/
theorem flag_letter_iff (G : String → String) (t : teamShow) (E m : String) (A : Table) :
    ∃ tail : String, (tail = ")" ∨ tail = "*)") ∧
      renderMember G { t with applLagMem := A } E m =
        memberDisplay G t m ++ "(" ++
          (if GetFieldValueString t.stateLagMem (E ++ "|" ++ m) ""
              "runner.aggregator.selected" = "true" then "S" else "D") ++ tail := by
  have key := flagSuffix_if (memberDisplay G t m)
    (decide (GetFieldValueString t.stateLagMem (E ++ "|" ++ m) ""
      "runner.aggregator.selected" = "true"))
    (unsyncedBit (getPortchannelMemberStatus { t with applLagMem := A } E m).1
      (getPortchannelMemberStatus { t with applLagMem := A } E m).2)
    (GetFieldValueString t.stateLagMem (E ++ "|" ++ m) ""
      "runner.aggregator.selected" = "true")
    (unsyncedBit (getPortchannelMemberStatus { t with applLagMem := A } E m).1
      (getPortchannelMemberStatus { t with applLagMem := A } E m).2 = true)
    decide_eq_true_iff Iff.rfl
  refine ⟨(if unsyncedBit (getPortchannelMemberStatus { t with applLagMem := A } E m).1
      (getPortchannelMemberStatus { t with applLagMem := A } E m).2 = true then "*" else "")
      ++ ")", ?_, ?_⟩
  · cases unsyncedBit (getPortchannelMemberStatus { t with applLagMem := A } E m).1
      (getPortchannelMemberStatus { t with applLagMem := A } E m).2
    · left; decide
    · right; decide
  · rw [renderMember_eq]
    exact key.trans (append_assoc _ _ _)

/-! ## The order of `sort.Strings` -/

theorem char_eq_of_toNat_eq {a b : Char} (h : a.toNat = b.toNat) : a = b := by
  apply Char.ext
  apply UInt32.ext
  exact h

theorem lexLe_refl : ∀ a : List Char, lexLe a a = true
  | [] => rfl
  | a :: as => by simp [lexLe, lexLe_refl as]

theorem lexLe_total : ∀ a b : List Char, lexLe a b = true ∨ lexLe b a = true
  | [], _ => Or.inl (by simp [lexLe])
  | _ :: _, [] => Or.inr (by simp [lexLe])
  | a :: as, b :: bs => by
    rcases Nat.lt_trichotomy a.toNat b.toNat with h | h | h
    · left; simp [lexLe, h]
    · rcases lexLe_total as bs with h1 | h1
      · left; simp [lexLe, h, h1]
      · right; simp [lexLe, h, h1]
    · right; simp [lexLe, h]

theorem lexLe_antisymm : ∀ a b : List Char, lexLe a b = true → lexLe b a = true → a = b
  | [], [], _, _ => rfl
  | [], _ :: _, _, h => by simp [lexLe] at h
  | _ :: _, [], h, _ => by simp [lexLe] at h
  | a :: as, b :: bs, h1, h2 => by
    rcases Nat.lt_trichotomy a.toNat b.toNat with h | h | h
    · have h3 : ¬ b.toNat < a.toNat := by omega
      simp [lexLe, h, h3] at h2
    · have hab : a = b := char_eq_of_toNat_eq h
      subst hab
      simp [lexLe] at h1 h2
      rw [lexLe_antisymm as bs h1 h2]
    · have h3 : ¬ a.toNat < b.toNat := by omega
      simp [lexLe, h, h3] at h1

theorem lexLe_trans : ∀ a b c : List Char, lexLe a b = true → lexLe b c = true → lexLe a c = true
  | [], _, _, _, _ => by simp [lexLe]
  | _ :: _, [], _, h, _ => by simp [lexLe] at h
  | _ :: _, _ :: _, [], _, h => by simp [lexLe] at h
  | a :: as, b :: bs, c :: cs, h1, h2 => by
    rcases Nat.lt_trichotomy a.toNat b.toNat with h | h | h
    · rcases Nat.lt_trichotomy b.toNat c.toNat with h' | h' | h'
      · have : a.toNat < c.toNat := by omega
        simp [lexLe, this]
      · have : a.toNat < c.toNat := by omega
        simp [lexLe, this]
      · have h3 : ¬ b.toNat < c.toNat := by omega
        simp [lexLe, h', h3] at h2
    · rcases Nat.lt_trichotomy b.toNat c.toNat with h' | h' | h'
      · have : a.toNat < c.toNat := by omega
        simp [lexLe, this]
      · have e1 : ¬ a.toNat < b.toNat := by omega
        have e2 : ¬ b.toNat < a.toNat := by omega
        have e3 : ¬ b.toNat < c.toNat := by omega
        have e4 : ¬ c.toNat < b.toNat := by omega
        have e5 : ¬ a.toNat < c.toNat := by omega
        have e6 : ¬ c.toNat < a.toNat := by omega
        simp only [lexLe, e1, e2, e3, e4, if_false] at h1 h2
        simp only [lexLe, e5, e6, if_false]
        exact lexLe_trans as bs cs h1 h2
      · have h3 : ¬ b.toNat < c.toNat := by omega
        simp [lexLe, h', h3] at h2
    · have h3 : ¬ a.toNat < b.toNat := by omega
      simp [lexLe, h, h3] at h1

theorem strLe_isTotal : IsTotal String strLe := ⟨fun a b => lexLe_total a.data b.data⟩

theorem strLe_isTrans : IsTrans String strLe :=
  ⟨fun a b c h1 h2 => lexLe_trans a.data b.data c.data h1 h2⟩

theorem strLe_isAntisymm : IsAntisymm String strLe :=
  ⟨fun a b h1 h2 => String.ext (lexLe_antisymm a.data b.data h1 h2)⟩

theorem sortStrings_sorted (xs : List String) : (sortStrings xs).Sorted strLe :=
  haveI := strLe_isTotal
  haveI := strLe_isTrans
  List.sorted_insertionSort strLe xs

theorem sortStrings_perm (xs : List String) : (sortStrings xs).Perm xs :=
  List.perm_insertionSort strLe xs

theorem sortStrings_eq_of_perm {xs ys : List String} (h : xs.Perm ys) :
    sortStrings xs = sortStrings ys :=
  haveI := strLe_isAntisymm
  List.eq_of_perm_of_sorted
    (((sortStrings_perm xs).trans h).trans (sortStrings_perm ys).symm)
    (sortStrings_sorted xs) (sortStrings_sorted ys)

/-! ## Prefixes -/

theorem hasPrefix_iff (s p : String) : hasPrefix s p = true ↔ ∃ r : String, s = p ++ r := by
  unfold hasPrefix
  rw [List.isPrefixOf_iff_prefix]
  constructor
  · rintro ⟨r, hr⟩
    exact ⟨⟨r⟩, String.ext (by simp [String.data_append, hr])⟩
  · rintro ⟨r, rfl⟩
    exact ⟨r.data, by simp [String.data_append]⟩

theorem hasPrefix_append (p r : String) : hasPrefix (p ++ r) p = true :=
  (hasPrefix_iff _ _).mpr ⟨r, rfl⟩

theorem trimPrefix_append (p r : String) : trimPrefix (p ++ r) p = r := by
  unfold trimPrefix
  rw [if_pos (hasPrefix_append p r)]
  apply String.ext
  simp [String.data_append]

/-! ## Lookups in a map do not depend on the iteration order -/

theorem lookup_eq_some_iff_mem {V : Type} (l : List (String × V)) (hnd : keysNodup l)
    (k : String) (v : V) : l.lookup k = some v ↔ (k, v) ∈ l := by
  induction l with
  | nil => simp
  | cons p l ih =>
    obtain ⟨k0, v0⟩ := p
    have hnd2 : (k0 ∉ keys l) ∧ keysNodup l := by
      simpa [keysNodup, keys] using hnd
    by_cases hk : k = k0
    · subst hk
      simp only [List.lookup_cons_self, Option.some.injEq, List.mem_cons, Prod.mk.injEq,
        true_and]
      constructor
      · intro h; exact Or.inl h.symm
      · rintro (h | h)
        · exact h.symm
        · exact absurd (List.mem_map_of_mem Prod.fst h) hnd2.1
    · have hb : (k == k0) = false := by simpa using hk
      rw [List.lookup_cons, hb]
      simp only [List.mem_cons, Prod.mk.injEq, hk, false_and, false_or]
      exact ih hnd2.2

theorem keysNodup_perm {V : Type} {l l2 : List (String × V)} (h : l.Perm l2)
    (hnd : keysNodup l) : keysNodup l2 :=
  ((h.map Prod.fst).nodup_iff).mp hnd

theorem lookup_perm {V : Type} {l l2 : List (String × V)} (h : l.Perm l2)
    (hnd : keysNodup l) (k : String) : l.lookup k = l2.lookup k := by
  apply Option.ext
  intro v
  simp only [Option.mem_def]
  rw [lookup_eq_some_iff_mem l hnd, lookup_eq_some_iff_mem l2 (keysNodup_perm h hnd)]
  exact h.mem_iff

theorem GetFieldValueString_perm {a b : Table} (h : a.Perm b) (hnd : keysNodup a)
    (key d field : String) :
    GetFieldValueString a key d field = GetFieldValueString b key d field := by
  unfold GetFieldValueString
  rw [lookup_perm h hnd key]

/-! ## The members of one port channel -/

theorem mem_collectMembers (t : teamShow) (E m : String) :
    m ∈ collectMembers t E ↔ (E ++ "|" ++ m) ∈ keys t.stateLagMem := by
  unfold collectMembers
  simp only [List.mem_map, List.mem_filter]
  constructor
  · rintro ⟨k, ⟨hk, hp⟩, rfl⟩
    obtain ⟨r, rfl⟩ := (hasPrefix_iff _ _).mp hp
    rw [trimPrefix_append]
    exact hk
  · intro h
    exact ⟨E ++ "|" ++ m, ⟨h, hasPrefix_append _ _⟩, trimPrefix_append _ _⟩

theorem collectMembers_perm {t t2 : teamShow} (h : t2.stateLagMem.Perm t.stateLagMem)
    (E : String) : (collectMembers t2 E).Perm (collectMembers t E) := by
  unfold collectMembers keys
  exact ((h.map Prod.fst).filter _).map _

theorem renderMember_congr (G : String → String) (t t2 : teamShow) (E m : String)
    (h1 : ∀ k f, GetFieldValueString t2.stateLagMem k "" f =
      GetFieldValueString t.stateLagMem k "" f)
    (h2 : ∀ k f, GetFieldValueString t2.applLagMem k "" f =
      GetFieldValueString t.applLagMem k "" f)
    (h3 : t2.aliasMode = t.aliasMode) :
    renderMember G t2 E m = renderMember G t E m := by
  unfold renderMember getPortchannelMemberStatus memberDisplay
  simp only [h1, h2, h3]

theorem getTeamdctl_congr (G : String → String) (t t2 : teamShow) (E : String)
    (hs : t2.stateLagMem.Perm t.stateLagMem) (hsn : keysNodup t.stateLagMem)
    (h2 : ∀ k f, GetFieldValueString t2.applLagMem k "" f =
      GetFieldValueString t.applLagMem k "" f)
    (h3 : t2.aliasMode = t.aliasMode) :
    getTeamdctl G t2 E = getTeamdctl G t E := by
  unfold getTeamdctl
  simp only
  rw [sortStrings_eq_of_perm (collectMembers_perm hs E)]
  apply List.map_congr_left
  intro m _
  apply renderMember_congr
  · intro k f
    exact (GetFieldValueString_perm hs.symm hsn k "" f).symm
  · exact h2
  · exact h3

/-- C8: the entries of getTeamdctl are the renderings of the raw member names
in ascending order: the list that is rendered is sorted, it holds the collected
raw names, the i-th entry renders its i-th name, and another iteration order of
the STATE_DB member table gives the same entries.  The alias resolver G and
the alias mode are arbitrary. -/
theorem entries_sorted_by_raw_name (G : String → String) (t : teamShow) (E : String)
    (S : Table) (hperm : S.Perm t.stateLagMem) (hnd : keysNodup t.stateLagMem) :
    (sortStrings (collectMembers t E)).Sorted strLe ∧
    (sortStrings (collectMembers t E)).Perm (collectMembers t E) ∧
    getTeamdctl G t E = (sortStrings (collectMembers t E)).map (renderMember G t E) ∧
    (∀ i : Nat, (getTeamdctl G t E)[i]? =
      ((sortStrings (collectMembers t E))[i]?).map (renderMember G t E)) ∧
    getTeamdctl G { t with stateLagMem := S } E = getTeamdctl G t E := by
  refine ⟨sortStrings_sorted _, sortStrings_perm _, rfl, ?_, ?_⟩
  · intro i
    unfold getTeamdctl
    simp only [List.getElem?_map]
  · exact getTeamdctl_congr G t { t with stateLagMem := S } E hperm hnd (fun _ _ => rfl) rfl

/-- C8 at the fixture in alias mode: PortChannel103 lists Ethernet0 before
Ethernet8 although their aliases sort the other way, also when the member
table is visited in reverse. -/
theorem entries_sorted_by_raw_name_witness :
    aliasFixture.stateLagMem.reverse.Perm aliasFixture.stateLagMem ∧
    keysNodup aliasFixture.stateLagMem ∧
    getTeamdctl aliasOf aliasFixture "PortChannel103" = ["etp9(S)", "etp1(D)"] ∧
    getTeamdctl aliasOf
      { aliasFixture with stateLagMem := aliasFixture.stateLagMem.reverse } "PortChannel103" =
      getTeamdctl aliasOf aliasFixture "PortChannel103" :=
  ⟨List.reverse_perm _, by decide, by decide,
    (entries_sorted_by_raw_name aliasOf aliasFixture "PortChannel103"
      aliasFixture.stateLagMem.reverse (List.reverse_perm _) (by decide)).2.2.2.2⟩

/-- C9: getTeamdctl lists m under E exactly when E|m is a key of the STATE_DB
member table, it returns as many entries as that table has keys with the
prefix E|, and no key of PortChannel10 has the prefix of PortChannel1.  The
APPL_DB member table plays no part in which members are listed. -/
theorem members_iff_state_key (G : String → String) (t : teamShow) (E m : String) :
    getTeamdctl G t E = (sortStrings (collectMembers t E)).map (renderMember G t E) ∧
    (m ∈ sortStrings (collectMembers t E) ↔ (E ++ "|" ++ m) ∈ keys t.stateLagMem) ∧
    (getTeamdctl G t E).length =
      ((keys t.stateLagMem).filter (fun k => hasPrefix k (E ++ "|"))).length ∧
    (∀ k : String, hasPrefix k (E ++ "|") = true ↔ ∃ r : String, k = E ++ "|" ++ r) ∧
    (∀ n : String, hasPrefix ("PortChannel10|" ++ n) "PortChannel1|" = false) ∧
    (∀ A : Table, sortStrings (collectMembers { t with applLagMem := A } E) =
      sortStrings (collectMembers t E)) := by
  refine ⟨rfl, ?_, ?_, ?_, ?_, ?_⟩
  · rw [(sortStrings_perm _).mem_iff]
    exact mem_collectMembers t E m
  · unfold getTeamdctl collectMembers
    simp only [List.length_map]
    rw [(sortStrings_perm _).length_eq, List.length_map]
  · intro k
    exact hasPrefix_iff k (E ++ "|")
  · intro n
    unfold hasPrefix
    rw [String.data_append]
    rfl
  · intro A
    rfl

/-! ## Enumeration of the port channels -/

/-- C3, as stated, fails: the key that is exactly `PortChannel` is returned by
getPortchannelNames, not excluded. -/
theorem bare_prefix_key_is_returned :
    getPortchannelNames barePrefixCtx = ["PortChannel", "PortChannel7"] ∧
    "PortChannel" ∈ getPortchannelNames barePrefixCtx := by
  decide

/-- C3, amended: getPortchannelNames returns exactly the keys of the
configuration table that start with `PortChannel`, each once, the key that is
exactly `PortChannel` included when the table holds it; keys without the
prefix are not returned and the other four tables add nothing. -/
theorem portchannel_names_exact (t : teamShow) (hnd : keysNodup t.cfgPC) :
    (∀ k : String, k ∈ getPortchannelNames t ↔
      (k ∈ keys t.cfgPC ∧ ∃ s : String, k = "PortChannel" ++ s)) ∧
    (getPortchannelNames t).Nodup ∧
    ("PortChannel" ∈ keys t.cfgPC → "PortChannel" ∈ getPortchannelNames t) ∧
    (∀ a b c d : Table,
      getPortchannelNames
        { t with stateLag := a, applLag := b, stateLagMem := c, applLagMem := d } =
      getPortchannelNames t) := by
  refine ⟨?_, ?_, ?_, ?_⟩
  · intro k
    unfold getPortchannelNames
    rw [List.mem_filter, hasPrefix_iff]
  · exact List.Nodup.filter _ hnd
  · intro h
    unfold getPortchannelNames
    rw [List.mem_filter]
    exact ⟨h, by decide⟩
  · intro a b c d
    rfl

/-- C3 amended, at a table that holds the bare prefix, a key without the prefix
and a numbered port channel. -/
theorem portchannel_names_exact_witness :
    keysNodup barePrefixCtx.cfgPC ∧
    (getPortchannelNames barePrefixCtx).Nodup ∧
    ("PortChannel" ∈ keys barePrefixCtx.cfgPC →
      "PortChannel" ∈ getPortchannelNames barePrefixCtx) :=
  ⟨by decide, (portchannel_names_exact barePrefixCtx (by decide)).2.1,
    (portchannel_names_exact barePrefixCtx (by decide)).2.2.1⟩

/-! ## Lower-casing -/

theorem char_toLower_iff (c lo up : Char) (hup : 65 ≤ up.toNat ∧ up.toNat ≤ 90)
    (hlo : ¬ (65 ≤ lo.toNat ∧ lo.toNat ≤ 90))
    (hall : ∀ n : Nat, 65 ≤ n → n ≤ 90 → (Char.ofNat (n + 32) = lo ↔ n = up.toNat)) :
    c.toLower = lo ↔ c = lo ∨ c = up := by
  unfold Char.toLower
  by_cases h : c.toNat ≥ 65 ∧ c.toNat ≤ 90
  · simp only [h, and_self, if_true]
    rw [hall _ h.1 h.2]
    constructor
    · intro e
      exact Or.inr (char_eq_of_toNat_eq e)
    · rintro (e | e)
      · rw [e] at h
        exact absurd h hlo
      · rw [e]
  · simp only [h, if_false]
    constructor
    · intro e
      exact Or.inl e
    · rintro (e | e)
      · exact e
      · rw [e] at h
        exact absurd hup h

theorem toLower_u (c : Char) : c.toLower = 'u' ↔ c = 'u' ∨ c = 'U' :=
  char_toLower_iff c 'u' 'U' (by decide) (by decide)
    (by intro n h1 h2; interval_cases n <;> decide)

theorem toLower_p (c : Char) : c.toLower = 'p' ↔ c = 'p' ∨ c = 'P' :=
  char_toLower_iff c 'p' 'P' (by decide) (by decide)
    (by intro n h1 h2; interval_cases n <;> decide)

theorem toLower_d (c : Char) : c.toLower = 'd' ↔ c = 'd' ∨ c = 'D' :=
  char_toLower_iff c 'd' 'D' (by decide) (by decide)
    (by intro n h1 h2; interval_cases n <;> decide)

theorem toLower_o (c : Char) : c.toLower = 'o' ↔ c = 'o' ∨ c = 'O' :=
  char_toLower_iff c 'o' 'O' (by decide) (by decide)
    (by intro n h1 h2; interval_cases n <;> decide)

theorem toLower_w (c : Char) : c.toLower = 'w' ↔ c = 'w' ∨ c = 'W' :=
  char_toLower_iff c 'w' 'W' (by decide) (by decide)
    (by intro n h1 h2; interval_cases n <;> decide)

theorem toLower_n (c : Char) : c.toLower = 'n' ↔ c = 'n' ∨ c = 'N' :=
  char_toLower_iff c 'n' 'N' (by decide) (by decide)
    (by intro n h1 h2; interval_cases n <;> decide)

theorem map_eq_two {f : Char → Char} {x y : Char} :
    ∀ l : List Char, l.map f = [x, y] → ∃ a b, l = [a, b] ∧ f a = x ∧ f b = y
  | [], h => by simp at h
  | [_], h => by simp at h
  | [a, b], h => ⟨a, b, rfl, by simpa using h⟩
  | _ :: _ :: _ :: _, h => by simp at h

theorem map_eq_four {f : Char → Char} {x y z w : Char} :
    ∀ l : List Char, l.map f = [x, y, z, w] →
      ∃ a b c d, l = [a, b, c, d] ∧ f a = x ∧ f b = y ∧ f c = z ∧ f d = w
  | [], h => by simp at h
  | [_], h => by simp at h
  | [_, _], h => by simp at h
  | [_, _, _], h => by simp at h
  | [a, b, c, d], h => ⟨a, b, c, d, rfl, by simpa using h⟩
  | _ :: _ :: _ :: _ :: _ :: _, h => by simp at h

theorem toLower_eq_up_iff (s : String) : toLower s = "up" ↔ s ∈ upSpellings := by
  constructor
  · intro h
    have hd : s.data.map Char.toLower = ['u', 'p'] := by
      have := congrArg String.data h
      simpa [toLower] using this
    rcases s with ⟨l⟩
    obtain ⟨a, b, rfl, ha, hb⟩ := map_eq_two l hd
    rcases (toLower_u a).mp ha with rfl | rfl <;>
      rcases (toLower_p b).mp hb with rfl | rfl <;> decide
  · intro h
    simp only [upSpellings, List.mem_cons, List.mem_singleton, List.not_mem_nil, or_false] at h
    rcases h with rfl | rfl | rfl | rfl <;> decide

theorem toLower_eq_down_iff (s : String) : toLower s = "down" ↔ s ∈ downSpellings := by
  constructor
  · intro h
    have hd : s.data.map Char.toLower = ['d', 'o', 'w', 'n'] := by
      have := congrArg String.data h
      simpa [toLower] using this
    rcases s with ⟨l⟩
    obtain ⟨a, b, c, d, rfl, ha, hb, hc, hd2⟩ := map_eq_four l hd
    rcases (toLower_d a).mp ha with rfl | rfl <;>
      rcases (toLower_o b).mp hb with rfl | rfl <;>
      rcases (toLower_w c).mp hc with rfl | rfl <;>
      rcases (toLower_n d).mp hd2 with rfl | rfl <;> decide
  · intro h
    simp only [downSpellings, List.mem_cons, List.mem_singleton, List.not_mem_nil,
      or_false] at h
    rcases h with rfl | rfl | rfl | rfl | rfl | rfl | rfl | rfl | rfl | rfl | rfl | rfl |
      rfl | rfl | rfl | rfl <;> decide

/-! ## The protocol label -/

/-- C6: getPortchannelStatus is `LACP`, then `(A)` when runner.active of the
STATE_DB row is the string `true` and `(I)` otherwise, then `(Up)` or `(Dw)`
when the lower-cased oper_status of the APPL_DB row is `up` or `down` and
`(N/A)` otherwise.  Lower-casing is pinned down: the result is `up` exactly
for the four spellings of `up` in upper and lower case, and `down` exactly for
the sixteen spellings of `down`.  An absent row gives `(I)`, respectively
`(N/A)`, and the label is one of six strings. -/
theorem portchannel_status_label (t : teamShow) (E : String) :
    getPortchannelStatus t E =
      "LACP" ++
        (if GetFieldValueString t.stateLag E "" "runner.active" = "true" then "(A)" else "(I)") ++
        (if toLower (GetFieldValueString t.applLag E "" "oper_status") = "up" then "(Up)"
         else if toLower (GetFieldValueString t.applLag E "" "oper_status") = "down" then "(Dw)"
         else "(N/A)") ∧
    (∀ s : String, toLower s = "up" ↔ s ∈ upSpellings) ∧
    (∀ s : String, toLower s = "down" ↔ s ∈ downSpellings) ∧
    getPortchannelStatus t E =
      "LACP" ++
        (if GetFieldValueString t.stateLag E "" "runner.active" = "true" then "(A)" else "(I)") ++
        (if GetFieldValueString t.applLag E "" "oper_status" ∈ upSpellings then "(Up)"
         else if GetFieldValueString t.applLag E "" "oper_status" ∈ downSpellings then "(Dw)"
         else "(N/A)") ∧
    (t.stateLag.lookup E = none →
      getPortchannelStatus t E =
        "LACP" ++ "(I)" ++
        (if toLower (GetFieldValueString t.applLag E "" "oper_status") = "up" then "(Up)"
         else if toLower (GetFieldValueString t.applLag E "" "oper_status") = "down" then "(Dw)"
         else "(N/A)")) ∧
    (t.applLag.lookup E = none →
      getPortchannelStatus t E =
        "LACP" ++
        (if GetFieldValueString t.stateLag E "" "runner.active" = "true" then "(A)" else "(I)") ++
        "(N/A)") ∧
    getPortchannelStatus t E ∈
      ["LACP(A)(Up)", "LACP(A)(Dw)", "LACP(A)(N/A)",
       "LACP(I)(Up)", "LACP(I)(Dw)", "LACP(I)(N/A)"] := by
  have main : getPortchannelStatus t E =
      "LACP" ++
        (if GetFieldValueString t.stateLag E "" "runner.active" = "true" then "(A)" else "(I)") ++
        (if toLower (GetFieldValueString t.applLag E "" "oper_status") = "up" then "(Up)"
         else if toLower (GetFieldValueString t.applLag E "" "oper_status") = "down" then "(Dw)"
         else "(N/A)") := by
    unfold getPortchannelStatus
    by_cases h : GetFieldValueString t.stateLag E "" "runner.active" = "true" <;> simp [h]
  refine ⟨main, toLower_eq_up_iff, toLower_eq_down_iff, ?_, ?_, ?_, ?_⟩
  · rw [main]
    simp only [toLower_eq_up_iff, toLower_eq_down_iff]
  · intro h
    rw [main, GetFieldValueString_absent _ _ _ _ h]
    rfl
  · intro h
    rw [main, GetFieldValueString_absent _ _ _ _ h]
    rfl
  · rw [main]
    by_cases h1 : GetFieldValueString t.stateLag E "" "runner.active" = "true" <;>
      by_cases h2 : toLower (GetFieldValueString t.applLag E "" "oper_status") = "up" <;>
      by_cases h3 : toLower (GetFieldValueString t.applLag E "" "oper_status") = "down" <;>
      simp only [h1, h2, h3, if_true, if_false] <;> decide

/-- C6 at values in mixed case: oper_status `UP` gives `(Up)` and `DoWn` gives
`(Dw)`, `upp` gives `(N/A)`, and runner.active `True` gives `(I)`. -/
theorem portchannel_status_label_witness :
    getPortchannelStatus mixedCaseCtx "PortChannel1" = "LACP(A)(Up)" ∧
    getPortchannelStatus mixedCaseCtx "PortChannel2" = "LACP(I)(Dw)" ∧
    getPortchannelStatus mixedCaseCtx "PortChannel3" = "LACP(A)(N/A)" ∧
    getPortchannelStatus mixedCaseCtx "PortChannel4" = "LACP(I)(N/A)" :=
  ⟨(portchannel_status_label mixedCaseCtx "PortChannel1").2.2.2.1.trans (by decide),
   (portchannel_status_label mixedCaseCtx "PortChannel2").2.2.2.1.trans (by decide),
   (portchannel_status_label mixedCaseCtx "PortChannel3").2.2.2.1.trans (by decide),
   (portchannel_status_label mixedCaseCtx "PortChannel4").2.2.2.1.trans (by decide)⟩

/-! ## The team identifier -/

theorem append_empty (a : String) : a ++ "" = a := by
  apply String.ext; simp [String.data_append]

theorem getTeamID_bare : getTeamID "PortChannel" = "PortChannel" := by decide

theorem getTeamID_append (s : String) (hs : s ≠ "") :
    getTeamID ("PortChannel" ++ s) = s := by
  have hlen : 0 < s.data.length := by
    rcases s with ⟨l⟩
    cases l with
    | nil => exact absurd rfl hs
    | cons c cs => simp
  unfold getTeamID
  rw [hasPrefix_append]
  have h2 : ("PortChannel" ++ s).data.length > "PortChannel".data.length := by
    rw [String.data_append, List.length_append]
    omega
  simp only [h2, decide_True, Bool.and_self, if_true]
  apply String.ext
  simp [String.data_append]

theorem getTeamID_eq_cases (a : String) (ha : hasPrefix a "PortChannel" = true) :
    (a = "PortChannel" ∧ getTeamID a = "PortChannel") ∨
    (a ≠ "PortChannel" ∧ a = "PortChannel" ++ getTeamID a) := by
  obtain ⟨s, rfl⟩ := (hasPrefix_iff _ _).mp ha
  by_cases hs : s = ""
  · subst hs
    left
    exact ⟨by decide, by decide⟩
  · right
    rw [getTeamID_append s hs]
    refine ⟨?_, rfl⟩
    intro h
    apply hs
    have h3 : "PortChannel" ++ s = "PortChannel" ++ "" := by rw [h]; decide
    exact append_left_cancel h3

theorem getTeamID_collision (a b : String) (ha : hasPrefix a "PortChannel" = true)
    (hb : hasPrefix b "PortChannel" = true) (h : getTeamID a = getTeamID b) :
    a = b ∨ (a = "PortChannel" ∧ b = "PortChannelPortChannel") ∨
      (a = "PortChannelPortChannel" ∧ b = "PortChannel") := by
  rcases getTeamID_eq_cases a ha with ⟨ha1, ha2⟩ | ⟨_, ha2⟩ <;>
    rcases getTeamID_eq_cases b hb with ⟨hb1, hb2⟩ | ⟨_, hb2⟩
  · left; rw [ha1, hb1]
  · right; left
    refine ⟨ha1, ?_⟩
    rw [hb2, ← h, ha2]; decide
  · right; right
    refine ⟨?_, hb1⟩
    rw [ha2, h, hb2]; decide
  · left
    rw [ha2, hb2, h]

/-! ## Writing into a Go map -/

theorem lookup_mapSet {V : Type} (m : List (String × V)) (k : String) (v : V) (k2 : String) :
    (mapSet m k v).lookup k2 = if k2 = k then some v else m.lookup k2 := by
  induction m with
  | nil =>
    by_cases h : k2 = k
    · subst h; simp [mapSet]
    · have hb : (k2 == k) = false := by simpa using h
      simp [mapSet, List.lookup_cons, hb, h]
  | cons p m ih =>
    obtain ⟨k0, v0⟩ := p
    by_cases h0 : k0 = k
    · subst h0
      by_cases h : k2 = k0
      · subst h; simp [mapSet]
      · have hb : (k2 == k0) = false := by simpa using h
        simp [mapSet, List.lookup_cons, hb, h]
    · by_cases h : k2 = k
      · subst h
        have hb : (k2 == k0) = false := by
          simpa using (fun e : k2 = k0 => h0 e.symm)
        simp [mapSet, h0, List.lookup_cons, hb, ih]
      · by_cases h2 : k2 = k0
        · subst h2
          simp [mapSet, h0, h]
        · have hb : (k2 == k0) = false := by simpa using h2
          simp [mapSet, h0, List.lookup_cons, hb, ih, h]

theorem mapSet_of_not_mem {V : Type} (m : List (String × V)) (k : String) (v : V)
    (h : k ∉ keys m) : mapSet m k v = m ++ [(k, v)] := by
  induction m with
  | nil => rfl
  | cons p m ih =>
    obtain ⟨k0, v0⟩ := p
    have h1 : k0 ≠ k := by
      intro e; apply h; simp [keys, e]
    have h2 : k ∉ keys m := by
      intro e; apply h; simp only [keys, List.map_cons, List.mem_cons]; exact Or.inr e
    simp [mapSet, h1, ih h2]

theorem foldl_mapSet_of_nodup {α V : Type} (f : α → String) (g : α → V) :
    ∀ (names : List α) (acc : List (String × V)),
      (keys acc ++ names.map f).Nodup →
      names.foldl (fun res x => mapSet res (f x) (g x)) acc =
        acc ++ names.map (fun x => (f x, g x))
  | [], acc, _ => by simp
  | x :: xs, acc, h => by
    have hx : f x ∉ keys acc := by
      intro hmem
      have := List.nodup_append.mp h
      exact this.2.2 hmem (by simp)
    have h2 : (keys (acc ++ [(f x, g x)]) ++ xs.map f).Nodup := by
      simpa [keys, List.append_assoc] using h
    rw [List.foldl_cons, mapSet_of_not_mem acc (f x) (g x) hx,
      foldl_mapSet_of_nodup f g xs _ h2]
    simp

theorem lookup_foldl_mapSet {α V : Type} (f : α → String) (g : α → V) (k : String) :
    ∀ (names : List α) (acc : List (String × V)),
      (names.foldl (fun res x => mapSet res (f x) (g x)) acc).lookup k =
        names.foldl (fun o x => if k = f x then some (g x) else o) (acc.lookup k)
  | [], _ => rfl
  | x :: xs, acc => by
    rw [List.foldl_cons, lookup_foldl_mapSet f g k xs, lookup_mapSet, List.foldl_cons]

theorem foldl_last_writer {α V : Type} (f : α → String) (g : α → V) (k : String) (v : V) :
    ∀ (names : List α) (o : Option V),
      (∀ x ∈ names, k = f x → g x = v) →
      (o = some v ∨ ∃ x ∈ names, k = f x) →
      names.foldl (fun o x => if k = f x then some (g x) else o) o = some v
  | [], o, _, h => by
    rcases h with h | ⟨x, hx, _⟩
    · exact h
    · simp at hx
  | x :: xs, o, hall, h => by
    rw [List.foldl_cons]
    apply foldl_last_writer f g k v xs
    · intro y hy
      exact hall y (List.mem_cons_of_mem _ hy)
    · by_cases hk : k = f x
      · left
        rw [if_pos hk, hall x (List.mem_cons_self _ _) hk]
      · rw [if_neg hk]
        rcases h with h | ⟨y, hy, hky⟩
        · exact Or.inl h
        · rcases List.mem_cons.mp hy with e | hy2
          · subst e; exact absurd hky hk
          · exact Or.inr ⟨y, hy2, hky⟩

/-! ## The result map -/

theorem mem_names_iff (t : teamShow) (k : String) :
    k ∈ getPortchannelNames t ↔ k ∈ keys t.cfgPC ∧ hasPrefix k "PortChannel" = true := by
  unfold getPortchannelNames
  rw [List.mem_filter]

theorem teamID_unique_of_no_collision (t : teamShow)
    (hcol : ¬ ("PortChannel" ∈ keys t.cfgPC ∧ "PortChannelPortChannel" ∈ keys t.cfgPC))
    (a b : String) (ha : a ∈ getPortchannelNames t) (hb : b ∈ getPortchannelNames t)
    (h : getTeamID a = getTeamID b) : a = b := by
  rw [mem_names_iff] at ha hb
  rcases getTeamID_collision a b ha.2 hb.2 h with e | ⟨e1, e2⟩ | ⟨e1, e2⟩
  · exact e
  · exact absurd ⟨e1 ▸ ha.1, e2 ▸ hb.1⟩ hcol
  · exact absurd ⟨e2 ▸ hb.1, e1 ▸ ha.1⟩ hcol

theorem names_nodup (t : teamShow) (hnd : keysNodup t.cfgPC) :
    (getPortchannelNames t).Nodup :=
  List.Nodup.filter _ hnd

theorem result_eq_map (G : String → String) (t : teamShow) (hnd : keysNodup t.cfgPC)
    (hcol : ¬ ("PortChannel" ∈ keys t.cfgPC ∧ "PortChannelPortChannel" ∈ keys t.cfgPC)) :
    getTeamshowResult G t =
      (getPortchannelNames t).map (fun pc => (getTeamID pc, teamRecord G t pc)) := by
  unfold getTeamshowResult
  have h := foldl_mapSet_of_nodup getTeamID (teamRecord G t) (getPortchannelNames t) []
    (by
      simp only [keys, List.map_nil, List.nil_append]
      exact List.Nodup.map_on
        (fun a ha b hb hab => teamID_unique_of_no_collision t hcol a b ha hb hab)
        (names_nodup t hnd))
  simpa using h

theorem result_lookup (G : String → String) (t : teamShow) (E : String)
    (hE : E ∈ getPortchannelNames t)
    (hcol : ¬ ("PortChannel" ∈ keys t.cfgPC ∧ "PortChannelPortChannel" ∈ keys t.cfgPC)) :
    (getTeamshowResult G t).lookup (getTeamID E) = some (teamRecord G t E) := by
  unfold getTeamshowResult
  simp only
  rw [lookup_foldl_mapSet]
  apply foldl_last_writer
  · intro x hx hk
    rw [teamID_unique_of_no_collision t hcol E x hE hx hk]
  · exact Or.inr ⟨E, hE, rfl⟩

/-- C4, as stated, fails: with the keys `PortChannel` and
`PortChannelPortChannel` two entities are enumerated, the result holds one
record, and the record at the identifier of `PortChannel` names the other
entity. -/
theorem colliding_entities_share_a_record :
    getPortchannelNames collideCtx = ["PortChannel", "PortChannelPortChannel"] ∧
    (getTeamshowResult id collideCtx).length = 1 ∧
    (getTeamshowResult id collideCtx).length ≠ (getPortchannelNames collideCtx).length ∧
    ((getTeamshowResult id collideCtx).lookup (getTeamID "PortChannel")).bind
      (fun r => r.lookup "Team Dev") = some "PortChannelPortChannel" := by
  decide

/-- C4, amended: when the configuration table does not hold both keys
`PortChannel` and `PortChannelPortChannel`, every enumerated name E has its
record at key getTeamID(E), whose `Team Dev` field is E, and the result holds as
many records as there are enumerated entities. -/
theorem one_record_per_entity (G : String → String) (t : teamShow)
    (hnd : keysNodup t.cfgPC)
    (hcol : ¬ ("PortChannel" ∈ keys t.cfgPC ∧ "PortChannelPortChannel" ∈ keys t.cfgPC)) :
    (∀ E ∈ getPortchannelNames t,
      (getTeamshowResult G t).lookup (getTeamID E) = some (teamRecord G t E) ∧
      (teamRecord G t E).lookup "Team Dev" = some E) ∧
    (getTeamshowResult G t).length = (getPortchannelNames t).length := by
  constructor
  · intro E hE
    exact ⟨result_lookup G t E hE hcol, by simp [teamRecord]⟩
  · rw [result_eq_map G t hnd hcol, List.length_map]

/-- C4 amended, at the fixture of the repository test: three entities, three
records, and `PortChannel102` is found at key `102`. -/
theorem one_record_per_entity_witness :
    keysNodup fixture.cfgPC ∧
    ¬ ("PortChannel" ∈ keys fixture.cfgPC ∧ "PortChannelPortChannel" ∈ keys fixture.cfgPC) ∧
    ((getTeamshowResult id fixture).lookup (getTeamID "PortChannel102") =
        some (teamRecord id fixture "PortChannel102") ∧
      (teamRecord id fixture "PortChannel102").lookup "Team Dev" = some "PortChannel102") ∧
    (getTeamshowResult id fixture).length = (getPortchannelNames fixture).length :=
  ⟨by decide, by decide,
    (one_record_per_entity id fixture (by decide) (by decide)).1 "PortChannel102" (by decide),
    (one_record_per_entity id fixture (by decide) (by decide)).2⟩

/-! ## Independence of the iteration order -/

theorem getPortchannelStatus_congr (t t2 : teamShow) (E : String)
    (h1 : ∀ k f, GetFieldValueString t2.stateLag k "" f = GetFieldValueString t.stateLag k "" f)
    (h2 : ∀ k f, GetFieldValueString t2.applLag k "" f = GetFieldValueString t.applLag k "" f) :
    getPortchannelStatus t2 E = getPortchannelStatus t E := by
  unfold getPortchannelStatus
  simp only [h1, h2]

theorem teamRecord_perm (G : String → String) (t t2 : teamShow) (E : String)
    (h2 : t2.stateLag.Perm t.stateLag) (h3 : t2.applLag.Perm t.applLag)
    (h4 : t2.stateLagMem.Perm t.stateLagMem) (h5 : t2.applLagMem.Perm t.applLagMem)
    (h6 : t2.aliasMode = t.aliasMode)
    (n2 : keysNodup t.stateLag) (n3 : keysNodup t.applLag)
    (n4 : keysNodup t.stateLagMem) (n5 : keysNodup t.applLagMem) :
    teamRecord G t2 E = teamRecord G t E := by
  unfold teamRecord
  simp only
  rw [getTeamdctl_congr G t t2 E h4 n4
      (fun k f => (GetFieldValueString_perm h5.symm n5 k "" f).symm) h6,
    getPortchannelStatus_congr t t2 E
      (fun k f => (GetFieldValueString_perm h2.symm n2 k "" f).symm)
      (fun k f => (GetFieldValueString_perm h3.symm n3 k "" f).symm)]

/-- C5, as stated, fails: with the keys `PortChannel` and
`PortChannelPortChannel` in the configuration table, visiting them in the
other order changes the record stored at key `PortChannel`. -/
theorem iteration_order_changes_colliding_record :
    keysNodup collideCtx.cfgPC ∧
    collideCtx.cfgPC.reverse.Perm collideCtx.cfgPC ∧
    (getTeamshowResult id { collideCtx with cfgPC := collideCtx.cfgPC.reverse }).lookup
        "PortChannel" =
      some [("Team Dev", "PortChannel"), ("Protocol", "LACP(I)(N/A)"), ("Ports", "")] ∧
    (getTeamshowResult id collideCtx).lookup "PortChannel" =
      some [("Team Dev", "PortChannelPortChannel"), ("Protocol", "LACP(A)(N/A)"),
        ("Ports", "Ethernet0(D*)")] ∧
    (getTeamshowResult id { collideCtx with cfgPC := collideCtx.cfgPC.reverse }).lookup
        "PortChannel" ≠
      (getTeamshowResult id collideCtx).lookup "PortChannel" :=
  ⟨by decide, List.reverse_perm _, by decide, by decide, by decide⟩

theorem result_perm_of_tables (G : String → String) (t t2 : teamShow)
    (h1 : t2.cfgPC.Perm t.cfgPC) (h2 : t2.stateLag.Perm t.stateLag)
    (h3 : t2.applLag.Perm t.applLag) (h4 : t2.stateLagMem.Perm t.stateLagMem)
    (h5 : t2.applLagMem.Perm t.applLagMem) (h6 : t2.aliasMode = t.aliasMode)
    (n1 : keysNodup t.cfgPC) (n2 : keysNodup t.stateLag) (n3 : keysNodup t.applLag)
    (n4 : keysNodup t.stateLagMem) (n5 : keysNodup t.applLagMem)
    (hcol : ¬ ("PortChannel" ∈ keys t.cfgPC ∧ "PortChannelPortChannel" ∈ keys t.cfgPC)) :
    (getTeamshowResult G t2).Perm (getTeamshowResult G t) := by
  have hk : (keys t2.cfgPC).Perm (keys t.cfgPC) := h1.map Prod.fst
  have hcol2 : ¬ ("PortChannel" ∈ keys t2.cfgPC ∧ "PortChannelPortChannel" ∈ keys t2.cfgPC) := by
    rw [hk.mem_iff, hk.mem_iff]; exact hcol
  have n1b : keysNodup t2.cfgPC := keysNodup_perm h1.symm n1
  have hnames : (getPortchannelNames t2).Perm (getPortchannelNames t) := hk.filter _
  rw [result_eq_map G t n1 hcol, result_eq_map G t2 n1b hcol2]
  have hfun : (fun pc => (getTeamID pc, teamRecord G t2 pc)) =
      (fun pc => (getTeamID pc, teamRecord G t pc)) := by
    funext pc
    rw [teamRecord_perm G t t2 pc h2 h3 h4 h5 h6 n2 n3 n4 n5]
  rw [hfun]
  exact hnames.map _

/-! ## An entity that only the configuration table knows -/

theorem collectMembers_eq_nil (t : teamShow) (E : String)
    (h : ∀ k ∈ keys t.stateLagMem, hasPrefix k (E ++ "|") = false) :
    collectMembers t E = [] := by
  unfold collectMembers
  simp only [List.map_eq_nil_iff, List.filter_eq_nil_iff]
  intro k hk
  rw [h k hk]
  simp

/-- C7, as stated, fails: `PortChannel` is a configuration key with no row in
any other table, yet the result holds no record of it; the record at its
identifier is the one of `PortChannelPortChannel`, with an active protocol
label and a member. -/
theorem config_only_entity_overwritten :
    "PortChannel" ∈ keys collideCtx.cfgPC ∧
    hasPrefix "PortChannel" "PortChannel" = true ∧
    collideCtx.stateLag.lookup "PortChannel" = none ∧
    collideCtx.applLag.lookup "PortChannel" = none ∧
    (∀ k ∈ keys collideCtx.stateLagMem, hasPrefix k ("PortChannel" ++ "|") = false) ∧
    (getTeamshowResult id collideCtx).lookup (getTeamID "PortChannel") =
      some [("Team Dev", "PortChannelPortChannel"), ("Protocol", "LACP(A)(N/A)"),
        ("Ports", "Ethernet0(D*)")] ∧
    (∀ kv ∈ getTeamshowResult id collideCtx, kv.2.lookup "Team Dev" ≠ some "PortChannel") := by
  decide

/-- C7, amended: when the configuration table does not hold both keys
`PortChannel` and `PortChannelPortChannel`, an entity E that is a key of the
configuration table with the prefix, and has no row in STATE_DB LAG_TABLE, no
row in APPL_DB LAG_TABLE and no key with prefix E| in the STATE_DB member
table, has its record in the result, with protocol `LACP(I)(N/A)` and no
ports. -/
theorem config_only_entity_record (G : String → String) (t : teamShow) (E : String)
    (hE : E ∈ keys t.cfgPC) (hp : hasPrefix E "PortChannel" = true)
    (hcol : ¬ ("PortChannel" ∈ keys t.cfgPC ∧ "PortChannelPortChannel" ∈ keys t.cfgPC))
    (h1 : t.stateLag.lookup E = none) (h2 : t.applLag.lookup E = none)
    (h3 : ∀ k ∈ keys t.stateLagMem, hasPrefix k (E ++ "|") = false) :
    (getTeamshowResult G t).lookup (getTeamID E) =
      some [("Team Dev", E), ("Protocol", "LACP(I)(N/A)"), ("Ports", "")] := by
  rw [result_lookup G t E ((mem_names_iff t E).mpr ⟨hE, hp⟩) hcol]
  have hs : getPortchannelStatus t E = "LACP(I)(N/A)" := by
    unfold getPortchannelStatus
    rw [GetFieldValueString_absent _ _ _ _ h1, GetFieldValueString_absent _ _ _ _ h2]
    decide
  have hd : getTeamdctl G t E = [] := by
    unfold getTeamdctl
    simp only
    rw [collectMembers_eq_nil t E h3]
    rfl
  unfold teamRecord
  simp only [hs, hd]
  rfl

/-- C7 amended, at the fixture extended by the configuration key
`PortChannel104`, which no other table knows. -/
theorem config_only_entity_record_witness :
    (getTeamshowResult id configOnlyCtx).lookup (getTeamID "PortChannel104") =
      some [("Team Dev", "PortChannel104"), ("Protocol", "LACP(I)(N/A)"), ("Ports", "")] :=
  config_only_entity_record id configOnlyCtx "PortChannel104" (by decide) (by decide)
    (by decide) (by decide) (by decide) (by decide)

/-! ## The team identifier, for every string -/

theorem data_length_pos_of_ne_empty (s : String) (hs : s ≠ "") : 0 < s.data.length := by
  rcases s with ⟨l⟩
  cases l with
  | nil => exact absurd rfl hs
  | cons c cs => simp

theorem getTeamID_unprefixed (t : String) (h : hasPrefix t "PortChannel" = false) :
    getTeamID t = t := by
  unfold getTeamID
  simp [h]

/-- C11: getTeamID(t) is the remainder s when t is `PortChannel` followed by a
non-empty s, and t itself when t does not start with `PortChannel` or is
exactly `PortChannel`; so it is empty only for the empty t, and a t that
starts with the prefix and is longer than it is the prefix followed by
getTeamID(t). -/
theorem teamID_strips_prefix (t : String) :
    (∀ s : String, s ≠ "" → t = "PortChannel" ++ s → getTeamID t = s ∧ getTeamID t ≠ "") ∧
    (hasPrefix t "PortChannel" = false → getTeamID t = t) ∧
    (t = "PortChannel" → getTeamID t = t) ∧
    (getTeamID t = "" → t = "") ∧
    (hasPrefix t "PortChannel" = true → t.length > "PortChannel".length →
      "PortChannel" ++ getTeamID t = t) := by
  refine ⟨?_, getTeamID_unprefixed t, ?_, ?_, ?_⟩
  · rintro s hs rfl
    rw [getTeamID_append s hs]
    exact ⟨rfl, hs⟩
  · rintro rfl
    exact getTeamID_bare
  · intro h
    cases hp : hasPrefix t "PortChannel"
    · rw [getTeamID_unprefixed t hp] at h
      exact h
    · rcases getTeamID_eq_cases t hp with ⟨_, h2⟩ | ⟨h1, h2⟩
      · rw [h] at h2
        exact absurd h2 (by decide)
      · rw [h] at h2
        exact absurd h2 h1
  · intro hp hlen
    rcases getTeamID_eq_cases t hp with ⟨h1, _⟩ | ⟨_, h2⟩
    · rw [h1] at hlen
      exact absurd hlen (by decide)
    · exact h2.symm

/-- C19: two distinct names with the prefix have the same identifier exactly
when they are `PortChannel` and `PortChannelPortChannel`; a configuration
table that does not hold both gives every enumerated entity its own key in
the result, one record each. -/
theorem teamID_injective_except_pair :
    (∀ a b : String, hasPrefix a "PortChannel" = true → hasPrefix b "PortChannel" = true →
      a ≠ b →
      (getTeamID a = getTeamID b ↔
        (a = "PortChannel" ∧ b = "PortChannelPortChannel") ∨
        (a = "PortChannelPortChannel" ∧ b = "PortChannel"))) ∧
    (∀ (G : String → String) (t : teamShow), keysNodup t.cfgPC →
      ¬ ("PortChannel" ∈ keys t.cfgPC ∧ "PortChannelPortChannel" ∈ keys t.cfgPC) →
      ((getPortchannelNames t).map getTeamID).Nodup ∧
      keys (getTeamshowResult G t) = (getPortchannelNames t).map getTeamID ∧
      getTeamshowResult G t =
        (getPortchannelNames t).map (fun pc => (getTeamID pc, teamRecord G t pc))) := by
  constructor
  · intro a b ha hb hne
    constructor
    · intro h
      rcases getTeamID_collision a b ha hb h with e | e | e
      · exact absurd e hne
      · exact Or.inl e
      · exact Or.inr e
    · rintro (⟨rfl, rfl⟩ | ⟨rfl, rfl⟩) <;> decide
  · intro G t hnd hcol
    have hmap := result_eq_map G t hnd hcol
    refine ⟨?_, ?_, hmap⟩
    · exact List.Nodup.map_on
        (fun a ha b hb hab => teamID_unique_of_no_collision t hcol a b ha hb hab)
        (names_nodup t hnd)
    · rw [hmap]
      unfold keys
      rw [List.map_map]
      rfl

/-! ## The query entry point -/

/-- C12: when a fetch reports an error after the fetches before it (in the
order CONFIG_DB PORTCHANNEL, STATE_DB LAG_TABLE, APPL_DB LAG_TABLE, STATE_DB
LAG_MEMBER_TABLE, APPL_DB LAG_MEMBER_TABLE) succeeded, getInterfacePortchannel
returns no payload and that error unchanged; a payload never comes with an
error. -/
theorem fetch_error_aborts {ε : Type} (fetch : List (List String) → Except ε Table)
    (mode : String) (G : String → String) :
    (∀ e : ε, fetch [["CONFIG_DB", "PORTCHANNEL"]] = .error e →
      getInterfacePortchannel fetch mode G = (none, some e)) ∧
    (∀ (e : ε) (T1 : Table), fetch [["CONFIG_DB", "PORTCHANNEL"]] = .ok T1 →
      fetch [["STATE_DB", "LAG_TABLE"]] = .error e →
      getInterfacePortchannel fetch mode G = (none, some e)) ∧
    (∀ (e : ε) (T1 T2 : Table), fetch [["CONFIG_DB", "PORTCHANNEL"]] = .ok T1 →
      fetch [["STATE_DB", "LAG_TABLE"]] = .ok T2 →
      fetch [["APPL_DB", "LAG_TABLE"]] = .error e →
      getInterfacePortchannel fetch mode G = (none, some e)) ∧
    (∀ (e : ε) (T1 T2 T3 : Table), fetch [["CONFIG_DB", "PORTCHANNEL"]] = .ok T1 →
      fetch [["STATE_DB", "LAG_TABLE"]] = .ok T2 →
      fetch [["APPL_DB", "LAG_TABLE"]] = .ok T3 →
      fetch [["STATE_DB", "LAG_MEMBER_TABLE"]] = .error e →
      getInterfacePortchannel fetch mode G = (none, some e)) ∧
    (∀ (e : ε) (T1 T2 T3 T4 : Table), fetch [["CONFIG_DB", "PORTCHANNEL"]] = .ok T1 →
      fetch [["STATE_DB", "LAG_TABLE"]] = .ok T2 →
      fetch [["APPL_DB", "LAG_TABLE"]] = .ok T3 →
      fetch [["STATE_DB", "LAG_MEMBER_TABLE"]] = .ok T4 →
      fetch [["APPL_DB", "LAG_MEMBER_TABLE"]] = .error e →
      getInterfacePortchannel fetch mode G = (none, some e)) ∧
    ((getInterfacePortchannel fetch mode G).2 ≠ none →
      (getInterfacePortchannel fetch mode G).1 = none) := by
  refine ⟨?_, ?_, ?_, ?_, ?_, ?_⟩
  · intro e h1
    simp [getInterfacePortchannel, h1]
  · intro e T1 h1 h2
    simp [getInterfacePortchannel, h1, h2]
  · intro e T1 T2 h1 h2 h3
    simp [getInterfacePortchannel, h1, h2, h3]
  · intro e T1 T2 T3 h1 h2 h3 h4
    simp [getInterfacePortchannel, h1, h2, h3, h4]
  · intro e T1 T2 T3 T4 h1 h2 h3 h4 h5
    simp [getInterfacePortchannel, h1, h2, h3, h4, h5]
  · unfold getInterfacePortchannel
    cases fetch [["CONFIG_DB", "PORTCHANNEL"]] <;>
      cases fetch [["STATE_DB", "LAG_TABLE"]] <;>
      cases fetch [["APPL_DB", "LAG_TABLE"]] <;>
      cases fetch [["STATE_DB", "LAG_MEMBER_TABLE"]] <;>
      cases fetch [["APPL_DB", "LAG_MEMBER_TABLE"]] <;>
      simp

/-- C12 at the fixture: whichever of the five fetches is the first to fail,
the query returns no payload and the error of that fetch. -/
theorem fetch_error_aborts_witness :
    getInterfacePortchannel (failingFetch 0) "" id = (none, some "CONFIG_DB down") ∧
    getInterfacePortchannel (failingFetch 1) "" id = (none, some "STATE_DB LAG_TABLE down") ∧
    getInterfacePortchannel (failingFetch 2) "" id = (none, some "APPL_DB LAG_TABLE down") ∧
    getInterfacePortchannel (failingFetch 3) "" id =
      (none, some "STATE_DB LAG_MEMBER_TABLE down") ∧
    getInterfacePortchannel (failingFetch 4) "" id =
      (none, some "APPL_DB LAG_MEMBER_TABLE down") :=
  ⟨(fetch_error_aborts (failingFetch 0) "" id).1 _ rfl,
   (fetch_error_aborts (failingFetch 1) "" id).2.1 _ _ rfl rfl,
   (fetch_error_aborts (failingFetch 2) "" id).2.2.1 _ _ _ rfl rfl rfl,
   (fetch_error_aborts (failingFetch 3) "" id).2.2.2.1 _ _ _ _ rfl rfl
     rfl rfl,
   (fetch_error_aborts (failingFetch 4) "" id).2.2.2.2.1 _ _ _ _ _ rfl rfl
     rfl rfl rfl⟩

/-- C13: when the five fetches succeed, getInterfacePortchannel returns the
serialized result of getTeamshowResult and no error, whatever the tables hold;
the query reports an error exactly when one of the five fetches does, and it
returns a payload exactly when it reports no error. -/
theorem query_fails_iff_fetch_fails {ε : Type} (fetch : List (List String) → Except ε Table)
    (mode : String) (G : String → String) :
    (∀ T1 T2 T3 T4 T5 : Table, fetch [["CONFIG_DB", "PORTCHANNEL"]] = .ok T1 →
      fetch [["STATE_DB", "LAG_TABLE"]] = .ok T2 →
      fetch [["APPL_DB", "LAG_TABLE"]] = .ok T3 →
      fetch [["STATE_DB", "LAG_MEMBER_TABLE"]] = .ok T4 →
      fetch [["APPL_DB", "LAG_MEMBER_TABLE"]] = .ok T5 →
      getInterfacePortchannel fetch mode G =
        (some (jsonMarshal (some (getTeamshowResult G
          { cfgPC := T1, stateLag := T2, applLag := T3, stateLagMem := T4, applLagMem := T5,
            aliasMode := (mode == "alias") }))), none)) ∧
    ((getInterfacePortchannel fetch mode G).2 ≠ none ↔
      ∃ q ∈ requiredTables, ∃ e : ε, fetch q = .error e) ∧
    ((getInterfacePortchannel fetch mode G).1 ≠ none ↔
      (getInterfacePortchannel fetch mode G).2 = none) := by
  refine ⟨?_, ?_, ?_⟩
  · intro T1 T2 T3 T4 T5 h1 h2 h3 h4 h5
    simp [getInterfacePortchannel, h1, h2, h3, h4, h5]
  · unfold getInterfacePortchannel requiredTables
    cases h1 : fetch [["CONFIG_DB", "PORTCHANNEL"]] <;>
      cases h2 : fetch [["STATE_DB", "LAG_TABLE"]] <;>
      cases h3 : fetch [["APPL_DB", "LAG_TABLE"]] <;>
      cases h4 : fetch [["STATE_DB", "LAG_MEMBER_TABLE"]] <;>
      cases h5 : fetch [["APPL_DB", "LAG_MEMBER_TABLE"]] <;>
      simp [h1, h2, h3, h4, h5]
  · unfold getInterfacePortchannel
    cases fetch [["CONFIG_DB", "PORTCHANNEL"]] <;>
      cases fetch [["STATE_DB", "LAG_TABLE"]] <;>
      cases fetch [["APPL_DB", "LAG_TABLE"]] <;>
      cases fetch [["STATE_DB", "LAG_MEMBER_TABLE"]] <;>
      cases fetch [["APPL_DB", "LAG_MEMBER_TABLE"]] <;>
      simp

/-- C13 at the fixture of the repository test: the five fetches succeed and
the query returns a payload and no error. -/
theorem query_fails_iff_fetch_fails_witness :
    getInterfacePortchannel (fetchFrom fixture) "" id =
      (some (jsonMarshal (some (getTeamshowResult id fixture))), none) :=
  (query_fails_iff_fetch_fails (fetchFrom fixture) "" id).1 _ _ _ _ _
    rfl rfl rfl rfl rfl

/-! ## No port channel at all -/

theorem names_eq_nil (t : teamShow)
    (h : ∀ k ∈ keys t.cfgPC, hasPrefix k "PortChannel" = false) :
    getPortchannelNames t = [] := by
  unfold getPortchannelNames
  rw [List.filter_eq_nil_iff]
  intro k hk
  rw [h k hk]
  simp

/-- C14: when no key of the configuration table has the prefix `PortChannel`
(the empty table included), getTeamshowResult is the empty map for every
content of the other four tables; the map is the one `make` built, so it is
serialized as the empty object and not as `null`, and the query returns that
payload without an error. -/
theorem empty_config_gives_empty_object (G : String → String) (t : teamShow)
    (h : ∀ k ∈ keys t.cfgPC, hasPrefix k "PortChannel" = false) :
    getTeamshowResult G t = [] ∧
    jsonMarshal (some (getTeamshowResult G t)) = "\x7b\x7d" ∧
    jsonMarshal (some (getTeamshowResult G t)) ≠ jsonMarshal none ∧
    (∀ (ε : Type) (fetch : List (List String) → Except ε Table) (mode : String),
      fetch [["CONFIG_DB", "PORTCHANNEL"]] = .ok t.cfgPC →
      fetch [["STATE_DB", "LAG_TABLE"]] = .ok t.stateLag →
      fetch [["APPL_DB", "LAG_TABLE"]] = .ok t.applLag →
      fetch [["STATE_DB", "LAG_MEMBER_TABLE"]] = .ok t.stateLagMem →
      fetch [["APPL_DB", "LAG_MEMBER_TABLE"]] = .ok t.applLagMem →
      getInterfacePortchannel fetch mode G = (some "\x7b\x7d", none)) := by
  have hres : ∀ t2 : teamShow, t2.cfgPC = t.cfgPC → getTeamshowResult G t2 = [] := by
    intro t2 h2
    unfold getTeamshowResult
    simp only
    rw [names_eq_nil t2 (by rw [h2]; exact h)]
    rfl
  refine ⟨hres t rfl, ?_, ?_, ?_⟩
  · rw [hres t rfl]; decide
  · rw [hres t rfl]; decide
  · intro ε fetch mode h1 h2 h3 h4 h5
    simp only [getInterfacePortchannel, h1, h2, h3, h4, h5]
    have e := hres ⟨t.cfgPC, t.stateLag, t.applLag, t.stateLagMem, t.applLagMem,
      mode == "alias"⟩ rfl
    rw [e]
    rfl

/-- C14 at a configuration table without a port channel, the other four
tables being those of the fixture. -/
theorem empty_config_gives_empty_object_witness :
    getTeamshowResult id noPortchannelCtx = [] ∧
    getInterfacePortchannel (fetchFrom noPortchannelCtx) "alias" aliasOf =
      (some "\x7b\x7d", none) :=
  ⟨(empty_config_gives_empty_object id noPortchannelCtx (by decide)).1,
   (empty_config_gives_empty_object aliasOf noPortchannelCtx (by decide)).2.2.2
     String (fetchFrom noPortchannelCtx) "alias" rfl rfl rfl rfl rfl⟩

/-! ## Every record of the result -/

theorem foldl_writer_some {α V : Type} (f : α → String) (g : α → V) (k : String) (v : V) :
    ∀ (names : List α) (o : Option V),
      names.foldl (fun o x => if k = f x then some (g x) else o) o = some v →
      o = some v ∨ ∃ x ∈ names, k = f x ∧ g x = v
  | [], _, h => Or.inl h
  | x :: xs, o, h => by
    rw [List.foldl_cons] at h
    rcases foldl_writer_some f g k v xs _ h with h1 | ⟨y, hy, hk, hv⟩
    · by_cases hk : k = f x
      · rw [if_pos hk] at h1
        exact Or.inr ⟨x, List.mem_cons_self _ _, hk, Option.some.inj h1⟩
      · rw [if_neg hk] at h1
        exact Or.inl h1
    · exact Or.inr ⟨y, List.mem_cons_of_mem _ hy, hk, hv⟩

theorem foldl_writer_map {α V W : Type} (f : α → String) (g : α → V) (h : V → W)
    (k : String) :
    ∀ (names : List α) (o : Option V),
      (names.foldl (fun o x => if k = f x then some (g x) else o) o).map h =
        names.foldl (fun o x => if k = f x then some (h (g x)) else o) (o.map h)
  | [], _ => rfl
  | x :: xs, o => by
    rw [List.foldl_cons, List.foldl_cons, foldl_writer_map f g h k xs]
    by_cases hk : k = f x
    · simp [hk]
    · simp [hk]

theorem keys_mapSet {V : Type} (m : List (String × V)) (k : String) (v : V) :
    keys (mapSet m k v) = if k ∈ keys m then keys m else keys m ++ [k] := by
  induction m with
  | nil => simp [mapSet, keys]
  | cons p m ih =>
    obtain ⟨k0, v0⟩ := p
    by_cases h0 : k0 = k
    · subst h0
      simp [mapSet, keys]
    · have h1 : ¬ k = k0 := fun e => h0 e.symm
      unfold keys at ih
      simp only [mapSet, h0, if_false, keys, List.map_cons, List.mem_cons, h1, false_or, ih]
      by_cases hm : k ∈ List.map Prod.fst m
      · simp [hm]
      · simp [hm]

theorem keys_foldl_mapSet {α V : Type} (f : α → String) (g : α → V) :
    ∀ (names : List α) (acc : List (String × V)),
      keys (names.foldl (fun res x => mapSet res (f x) (g x)) acc) =
        names.foldl (fun ks x => if f x ∈ ks then ks else ks ++ [f x]) (keys acc)
  | [], _ => rfl
  | x :: xs, acc => by
    rw [List.foldl_cons, keys_foldl_mapSet f g xs, keys_mapSet, List.foldl_cons]

theorem keysNodup_foldl {α : Type} (f : α → String) :
    ∀ (names : List α) (ks : List String), ks.Nodup →
      (names.foldl (fun ks x => if f x ∈ ks then ks else ks ++ [f x]) ks).Nodup
  | [], _, h => h
  | x :: xs, ks, h => by
    rw [List.foldl_cons]
    apply keysNodup_foldl f xs
    by_cases hm : f x ∈ ks
    · rw [if_pos hm]; exact h
    · rw [if_neg hm]
      rw [List.nodup_append]
      refine ⟨h, List.nodup_singleton _, ?_⟩
      intro a ha hb
      rw [List.mem_singleton] at hb
      subst hb
      exact hm ha

theorem result_keysNodup (G : String → String) (t : teamShow) :
    keysNodup (getTeamshowResult G t) := by
  unfold keysNodup getTeamshowResult
  simp only
  rw [keys_foldl_mapSet]
  exact keysNodup_foldl _ _ _ List.nodup_nil

theorem stringsJoin_data (sep : String) :
    ∀ xs : List String,
      (stringsJoin xs sep).data = List.intercalate sep.data (xs.map String.data)
  | [] => rfl
  | [a] => by simp [stringsJoin, List.intercalate]
  | a :: b :: rest => by
    have ih := stringsJoin_data sep (b :: rest)
    simp only [stringsJoin, String.data_append, ih]
    simp [List.intercalate, List.intersperse]

/-- C15: the record at a key k of the result has exactly the fields `Team
Dev`, `Protocol` and `Ports`, and is the record of an enumerated entity: its
`Team Dev` is a name E returned by getPortchannelNames, k is getTeamID(E),
its `Protocol` is getPortchannelStatus(E) and its `Ports` is the entries of
getTeamdctl(E) with one space between consecutive entries.  Every entry of
the result is the record at its key. -/
theorem record_comes_from_entity (G : String → String) (t : teamShow) (k : String)
    (r : Row) (h : (getTeamshowResult G t).lookup k = some r) :
    keys r = ["Team Dev", "Protocol", "Ports"] ∧
    (∃ E : String, r.lookup "Team Dev" = some E) ∧
    (∀ E : String, r.lookup "Team Dev" = some E →
      E ∈ getPortchannelNames t ∧ k = getTeamID E ∧
      r.lookup "Protocol" = some (getPortchannelStatus t E) ∧
      r.lookup "Ports" = some (stringsJoin (getTeamdctl G t E) " ") ∧
      (stringsJoin (getTeamdctl G t E) " ").data =
        List.intercalate " ".data ((getTeamdctl G t E).map String.data)) ∧
    (∀ kv ∈ getTeamshowResult G t, (getTeamshowResult G t).lookup kv.1 = some kv.2) := by
  have h2 := h
  unfold getTeamshowResult at h2
  simp only at h2
  rw [lookup_foldl_mapSet] at h2
  rcases foldl_writer_some _ _ _ _ _ _ h2 with h3 | ⟨E, hE, hk, hr⟩
  · simp at h3
  · subst hr
    refine ⟨rfl, ⟨E, by simp [teamRecord]⟩, ?_, ?_⟩
    · intro E2 h4
      have hE2 : E = E2 := by simpa [teamRecord] using h4
      subst hE2
      exact ⟨hE, hk, rfl, rfl, stringsJoin_data _ _⟩
    · intro kv hkv
      exact (lookup_eq_some_iff_mem _ (result_keysNodup G t) kv.1 kv.2).mpr hkv

/-- C15 at Scenario B: the record at key `101`. -/
theorem record_comes_from_entity_witness :
    (getTeamshowResult id scenarioB).lookup "101" =
      some [("Team Dev", "PortChannel101"), ("Protocol", "LACP(A)(Up)"),
        ("Ports", "Ethernet0(S)")] ∧
    "PortChannel101" ∈ getPortchannelNames scenarioB ∧
    "101" = getTeamID "PortChannel101" ∧
    getPortchannelStatus scenarioB "PortChannel101" = "LACP(A)(Up)" ∧
    stringsJoin (getTeamdctl id scenarioB "PortChannel101") " " = "Ethernet0(S)" ∧
    stringsJoin (getTeamdctl id fixture "PortChannel103") " " = "Ethernet0(S) Ethernet8(D)" :=
  ⟨by decide,
   ((record_comes_from_entity id scenarioB "101"
      [("Team Dev", "PortChannel101"), ("Protocol", "LACP(A)(Up)"), ("Ports", "Ethernet0(S)")]
      (by decide)).2.2.1 "PortChannel101" (by decide)).1,
   by decide, by decide, by decide, by decide⟩

/-! ## Alias mode -/

/-- C16: a context and the same five tables under another alias mode give
results with the same keys and, at every key, the same `Team Dev` and
`Protocol`; every entity has the same raw member names in the same order, as
many entries, and on each entry the same flag suffix after the display name;
without alias mode the display name is the raw member name. -/
theorem alias_mode_only_renames (G : String → String) (t : teamShow) (b : Bool) :
    keys (getTeamshowResult G { t with aliasMode := b }) = keys (getTeamshowResult G t) ∧
    (∀ k : String,
      ((getTeamshowResult G { t with aliasMode := b }).lookup k).map
          (fun r => (r.lookup "Team Dev", r.lookup "Protocol")) =
        ((getTeamshowResult G t).lookup k).map
          (fun r => (r.lookup "Team Dev", r.lookup "Protocol"))) ∧
    (∀ E : String,
      sortStrings (collectMembers { t with aliasMode := b } E) =
        sortStrings (collectMembers t E) ∧
      (getTeamdctl G { t with aliasMode := b } E).length = (getTeamdctl G t E).length) ∧
    (∀ E m : String, ∃ sfx : String,
      renderMember G { t with aliasMode := b } E m =
        memberDisplay G { t with aliasMode := b } m ++ sfx ∧
      renderMember G t E m = memberDisplay G t m ++ sfx) ∧
    (∀ E m : String, t.aliasMode = false →
      memberDisplay G t m = m ∧ ∃ sfx : String, renderMember G t E m = m ++ sfx) := by
  refine ⟨?_, ?_, ?_, ?_, ?_⟩
  · unfold getTeamshowResult
    simp only
    rw [keys_foldl_mapSet, keys_foldl_mapSet]
    rfl
  · intro k
    unfold getTeamshowResult
    simp only
    rw [lookup_foldl_mapSet, lookup_foldl_mapSet, foldl_writer_map, foldl_writer_map]
    rfl
  · intro E
    refine ⟨rfl, ?_⟩
    unfold getTeamdctl
    simp only [List.length_map]
    rfl
  · intro E m
    exact ⟨_, renderMember_eq G _ E m, renderMember_eq G t E m⟩
  · intro E m h
    have hd : memberDisplay G t m = m := by
      unfold memberDisplay
      rw [h]
      rfl
    have hr := renderMember_eq G t E m
    rw [hd] at hr
    exact ⟨hd, _, hr⟩

/-! ## The order of the serialized output -/

theorem sortByKey_sorted {V : Type} (m : List (String × V)) :
    (sortByKey m).Sorted (fun a b => strLe a.1 b.1) :=
  haveI : IsTotal (String × V) (fun a b => strLe a.1 b.1) :=
    ⟨fun a b => strLe_isTotal.total a.1 b.1⟩
  haveI : IsTrans (String × V) (fun a b => strLe a.1 b.1) :=
    ⟨fun a b c h1 h2 => strLe_isTrans.trans a.1 b.1 c.1 h1 h2⟩
  List.sorted_insertionSort _ m

theorem sortByKey_perm {V : Type} (m : List (String × V)) : (sortByKey m).Perm m :=
  List.perm_insertionSort _ m

/-- C17, as stated, fails: with the entities `PortChannel9` and
`PortChannel10` the record `10` is written before the record `9`. -/
theorem ten_is_written_before_nine :
    getInterfacePortchannel (fetchFrom nineTenCtx) "" id =
      (some ("\x7b" ++
        "\"10\":\x7b\"Ports\":\"\",\"Protocol\":\"LACP(I)(N/A)\",\"Team Dev\":\"PortChannel10\"\x7d"
        ++ "," ++
        "\"9\":\x7b\"Ports\":\"\",\"Protocol\":\"LACP(I)(N/A)\",\"Team Dev\":\"PortChannel9\"\x7d"
        ++ "\x7d"), none) ∧
    (sortByKey (getTeamshowResult id nineTenCtx)).map Prod.fst = ["10", "9"] := by
  decide

/-- C17, amended: the top-level keys of the serialized output are written in
ascending lexicographic order of the identifier strings, compared code point
by code point, so `10` comes before `9`: the payload is the entries of the
result, ordered by key, between braces and separated by commas. -/
theorem top_level_keys_lexicographic (G : String → String) (t : teamShow) :
    jsonMarshal (some (getTeamshowResult G t)) =
      "\x7b" ++
        stringsJoin ((sortByKey (getTeamshowResult G t)).map
          (fun kv => jsonQuote kv.1 ++ ":" ++ marshalRecord kv.2)) "," ++
        "\x7d" ∧
    (keys (sortByKey (getTeamshowResult G t))).Sorted strLe ∧
    (sortByKey (getTeamshowResult G t)).Perm (getTeamshowResult G t) ∧
    (∀ (ε : Type) (fetch : List (List String) → Except ε Table) (mode : String),
      fetch [["CONFIG_DB", "PORTCHANNEL"]] = .ok t.cfgPC →
      fetch [["STATE_DB", "LAG_TABLE"]] = .ok t.stateLag →
      fetch [["APPL_DB", "LAG_TABLE"]] = .ok t.applLag →
      fetch [["STATE_DB", "LAG_MEMBER_TABLE"]] = .ok t.stateLagMem →
      fetch [["APPL_DB", "LAG_MEMBER_TABLE"]] = .ok t.applLagMem →
      getInterfacePortchannel fetch mode G =
        (some (jsonMarshal (some (getTeamshowResult G
          { t with aliasMode := (mode == "alias") }))), none)) := by
  refine ⟨rfl, ?_, sortByKey_perm _, ?_⟩
  · unfold keys List.Sorted
    rw [List.pairwise_map]
    exact sortByKey_sorted _
  · intro ε fetch mode h1 h2 h3 h4 h5
    simp [getInterfacePortchannel, h1, h2, h3, h4, h5]

/-- C18, as stated, fails: the Scenario B entity is serialized with its fields
in the order `Ports`, `Protocol`, `Team Dev`, not in the order `Team Dev`,
`Protocol`, `Ports`. -/
theorem fields_not_in_schema_order :
    getInterfacePortchannel (fetchFrom scenarioB) "" id =
      (some ("\x7b" ++ "\"101\":" ++
        "\x7b\"Ports\":\"Ethernet0(S)\",\"Protocol\":\"LACP(A)(Up)\",\"Team Dev\":\"PortChannel101\"\x7d"
        ++ "\x7d"), none) ∧
    (getInterfacePortchannel (fetchFrom scenarioB) "" id).1 ≠
      some ("\x7b" ++ "\"101\":" ++
        "\x7b\"Team Dev\":\"PortChannel101\",\"Protocol\":\"LACP(A)(Up)\",\"Ports\":\"Ethernet0(S)\"\x7d"
        ++ "\x7d") := by
  decide

theorem marshalRecord_teamRecord (G : String → String) (t : teamShow) (E : String) :
    marshalRecord (teamRecord G t E) =
      "\x7b" ++
        ("\"Ports\":" ++ jsonQuote (stringsJoin (getTeamdctl G t E) " ") ++ "," ++
          ("\"Protocol\":" ++ jsonQuote (getPortchannelStatus t E) ++ "," ++
            ("\"Team Dev\":" ++ jsonQuote E))) ++
        "\x7d" := by
  rfl

theorem result_entry_origin (G : String → String) (t : teamShow) (kv : String × Row)
    (h : kv ∈ getTeamshowResult G t) :
    ∃ E ∈ getPortchannelNames t, kv.1 = getTeamID E ∧ kv.2 = teamRecord G t E := by
  have h1 := (lookup_eq_some_iff_mem _ (result_keysNodup G t) kv.1 kv.2).mpr h
  unfold getTeamshowResult at h1
  simp only at h1
  rw [lookup_foldl_mapSet] at h1
  rcases foldl_writer_some _ _ _ _ _ _ h1 with h3 | ⟨E, hE, hk, hr⟩
  · simp at h3
  · exact ⟨E, hE, hk, hr.symm⟩

/-- C18, amended: in the serialized output of getInterfacePortchannel the
fields of every record are written in ascending order of the field names,
`Ports`, then `Protocol`, then `Team Dev`: the payload of the query is what
json.Marshal writes for the result, that is the entries of the result between
braces, each the quoted key, a colon and the record, and the record of every
entry is written with the three fields of its entity in that order. -/
theorem serialized_fields_sorted_by_name (G : String → String) (t : teamShow) :
    (∀ (ε : Type) (fetch : List (List String) → Except ε Table) (mode : String),
      fetch [["CONFIG_DB", "PORTCHANNEL"]] = .ok t.cfgPC →
      fetch [["STATE_DB", "LAG_TABLE"]] = .ok t.stateLag →
      fetch [["APPL_DB", "LAG_TABLE"]] = .ok t.applLag →
      fetch [["STATE_DB", "LAG_MEMBER_TABLE"]] = .ok t.stateLagMem →
      fetch [["APPL_DB", "LAG_MEMBER_TABLE"]] = .ok t.applLagMem →
      t.aliasMode = (mode == "alias") →
      getInterfacePortchannel fetch mode G =
        (some (jsonMarshal (some (getTeamshowResult G t))), none)) ∧
    jsonMarshal (some (getTeamshowResult G t)) =
      "\x7b" ++
        stringsJoin ((sortByKey (getTeamshowResult G t)).map
          (fun kv => jsonQuote kv.1 ++ ":" ++ marshalRecord kv.2)) "," ++
        "\x7d" ∧
    (∀ kv ∈ sortByKey (getTeamshowResult G t),
      ∃ E ∈ getPortchannelNames t, kv.1 = getTeamID E ∧
        marshalRecord kv.2 =
          "\x7b" ++
            ("\"Ports\":" ++ jsonQuote (stringsJoin (getTeamdctl G t E) " ") ++ "," ++
              ("\"Protocol\":" ++ jsonQuote (getPortchannelStatus t E) ++ "," ++
                ("\"Team Dev\":" ++ jsonQuote E))) ++
            "\x7d") := by
  refine ⟨?_, rfl, ?_⟩
  · intro ε fetch mode h1 h2 h3 h4 h5 h6
    simp only [getInterfacePortchannel, h1, h2, h3, h4, h5, ← h6]
  · intro kv hkv
    obtain ⟨E, hE, hk, hr⟩ :=
      result_entry_origin G t kv ((sortByKey_perm _).mem_iff.mp hkv)
    refine ⟨E, hE, hk, ?_⟩
    rw [hr]
    exact marshalRecord_teamRecord G t E

/-- C18 amended, at Scenario B: the query returns the bytes that json.Marshal
writes for the result, with the fields of the record `101` in the order
`Ports`, `Protocol`, `Team Dev`. -/
theorem serialized_fields_sorted_by_name_witness :
    getInterfacePortchannel (fetchFrom scenarioB) "" id =
      (some (jsonMarshal (some (getTeamshowResult id scenarioB))), none) ∧
    jsonMarshal (some (getTeamshowResult id scenarioB)) =
      "\x7b" ++ "\"101\":" ++
        "\x7b\"Ports\":\"Ethernet0(S)\",\"Protocol\":\"LACP(A)(Up)\",\"Team Dev\":\"PortChannel101\"\x7d"
        ++ "\x7d" :=
  ⟨(serialized_fields_sorted_by_name id scenarioB).1 String (fetchFrom scenarioB) ""
      rfl rfl rfl rfl rfl rfl,
   (serialized_fields_sorted_by_name id scenarioB).2.1.trans (by decide)⟩

/-! ## The serialized output does not depend on the iteration order -/

theorem sorted_by_key_unique {V : Type} :
    ∀ l1 l2 : List (String × V), l1.Perm l2 →
      l1.Sorted (fun a b => strLe a.1 b.1) → l2.Sorted (fun a b => strLe a.1 b.1) →
      keysNodup l1 → l1 = l2
  | [], l2, hp, _, _, _ => hp.nil_eq
  | a :: l1, [], hp, _, _, _ => absurd hp.length_eq (by simp)
  | a :: l1, b :: l2, hp, hs1, hs2, hn => by
    have hn2 : a.1 ∉ keys l1 ∧ keysNodup l1 := by
      simpa [keysNodup, keys] using hn
    have hab : a = b := by
      by_contra hne
      have ha : a ∈ l2 := by
        rcases List.mem_cons.mp (hp.subset (List.mem_cons_self a l1)) with e | e
        · exact absurd e hne
        · exact e
      have hb : b ∈ l1 := by
        rcases List.mem_cons.mp (hp.symm.subset (List.mem_cons_self b l2)) with e | e
        · exact absurd e.symm hne
        · exact e
      have r1 : strLe a.1 b.1 := List.rel_of_sorted_cons hs1 b hb
      have r2 : strLe b.1 a.1 := List.rel_of_sorted_cons hs2 a ha
      have hkey : a.1 = b.1 := strLe_isAntisymm.antisymm a.1 b.1 r1 r2
      apply hn2.1
      rw [hkey]
      exact List.mem_map_of_mem Prod.fst hb
    subst hab
    rw [sorted_by_key_unique l1 l2 ((List.perm_cons a).mp hp) hs1.of_cons hs2.of_cons hn2.2]

theorem sortByKey_eq_of_perm {V : Type} {l1 l2 : List (String × V)} (hp : l1.Perm l2)
    (hn : keysNodup l1) : sortByKey l1 = sortByKey l2 :=
  sorted_by_key_unique _ _
    (((sortByKey_perm l1).trans hp).trans (sortByKey_perm l2).symm)
    (sortByKey_sorted l1) (sortByKey_sorted l2)
    (keysNodup_perm (sortByKey_perm l1).symm hn)

theorem jsonMarshal_eq_of_perm {l1 l2 : List (String × Row)} (hp : l1.Perm l2)
    (hn : keysNodup l1) : jsonMarshal (some l1) = jsonMarshal (some l2) := by
  simp only [jsonMarshal]
  rw [sortByKey_eq_of_perm hp hn]

/-- C5, amended: when the configuration table does not hold both keys
`PortChannel` and `PortChannelPortChannel`, two contexts whose five tables
have the same contents in any iteration order, and the same alias mode, give
the same result map (the same records under the same keys) and therefore the
same serialized output, from json.Marshal and from the whole query. -/
theorem result_independent_of_iteration_order (G : String → String) (t t2 : teamShow)
    (h1 : t2.cfgPC.Perm t.cfgPC) (h2 : t2.stateLag.Perm t.stateLag)
    (h3 : t2.applLag.Perm t.applLag) (h4 : t2.stateLagMem.Perm t.stateLagMem)
    (h5 : t2.applLagMem.Perm t.applLagMem) (h6 : t2.aliasMode = t.aliasMode)
    (n1 : keysNodup t.cfgPC) (n2 : keysNodup t.stateLag) (n3 : keysNodup t.applLag)
    (n4 : keysNodup t.stateLagMem) (n5 : keysNodup t.applLagMem)
    (hcol : ¬ ("PortChannel" ∈ keys t.cfgPC ∧ "PortChannelPortChannel" ∈ keys t.cfgPC)) :
    (getTeamshowResult G t2).Perm (getTeamshowResult G t) ∧
    (∀ k : String, (getTeamshowResult G t2).lookup k = (getTeamshowResult G t).lookup k) ∧
    jsonMarshal (some (getTeamshowResult G t2)) = jsonMarshal (some (getTeamshowResult G t)) ∧
    (∀ (ε : Type) (fetch fetch2 : List (List String) → Except ε Table) (mode : String),
      fetch [["CONFIG_DB", "PORTCHANNEL"]] = .ok t.cfgPC →
      fetch [["STATE_DB", "LAG_TABLE"]] = .ok t.stateLag →
      fetch [["APPL_DB", "LAG_TABLE"]] = .ok t.applLag →
      fetch [["STATE_DB", "LAG_MEMBER_TABLE"]] = .ok t.stateLagMem →
      fetch [["APPL_DB", "LAG_MEMBER_TABLE"]] = .ok t.applLagMem →
      fetch2 [["CONFIG_DB", "PORTCHANNEL"]] = .ok t2.cfgPC →
      fetch2 [["STATE_DB", "LAG_TABLE"]] = .ok t2.stateLag →
      fetch2 [["APPL_DB", "LAG_TABLE"]] = .ok t2.applLag →
      fetch2 [["STATE_DB", "LAG_MEMBER_TABLE"]] = .ok t2.stateLagMem →
      fetch2 [["APPL_DB", "LAG_MEMBER_TABLE"]] = .ok t2.applLagMem →
      getInterfacePortchannel fetch2 mode G = getInterfacePortchannel fetch mode G) := by
  have hperm := result_perm_of_tables G t t2 h1 h2 h3 h4 h5 h6 n1 n2 n3 n4 n5 hcol
  refine ⟨hperm, fun k => lookup_perm hperm (result_keysNodup G t2) k,
    jsonMarshal_eq_of_perm hperm (result_keysNodup G t2), ?_⟩
  intro ε fetch fetch2 mode a1 a2 a3 a4 a5 b1 b2 b3 b4 b5
  have hq := result_perm_of_tables G
    ⟨t.cfgPC, t.stateLag, t.applLag, t.stateLagMem, t.applLagMem, mode == "alias"⟩
    ⟨t2.cfgPC, t2.stateLag, t2.applLag, t2.stateLagMem, t2.applLagMem, mode == "alias"⟩
    h1 h2 h3 h4 h5 rfl n1 n2 n3 n4 n5 hcol
  simp only [getInterfacePortchannel, a1, a2, a3, a4, a5, b1, b2, b3, b4, b5]
  rw [jsonMarshal_eq_of_perm hq (result_keysNodup G _)]

/-- C5 amended, at the fixture of the repository test and the same tables
visited in reverse: the same records, the same bytes from json.Marshal and
the same answer of the query, here in alias mode. -/
theorem result_independent_of_iteration_order_witness :
    (getTeamshowResult aliasOf reversedFixture).Perm (getTeamshowResult aliasOf fixture) ∧
    (∀ k : String, (getTeamshowResult aliasOf reversedFixture).lookup k =
      (getTeamshowResult aliasOf fixture).lookup k) ∧
    jsonMarshal (some (getTeamshowResult aliasOf reversedFixture)) =
      jsonMarshal (some (getTeamshowResult aliasOf fixture)) ∧
    getInterfacePortchannel (fetchFrom reversedFixture) "alias" aliasOf =
      getInterfacePortchannel (fetchFrom fixture) "alias" aliasOf :=
  have h := result_independent_of_iteration_order aliasOf fixture reversedFixture
    (List.reverse_perm _) (List.reverse_perm _) (List.reverse_perm _) (List.reverse_perm _)
    (List.reverse_perm _) rfl (by decide) (by decide) (by decide) (by decide) (by decide)
    (by decide)
  ⟨h.1, h.2.1, h.2.2.1,
    h.2.2.2 String (fetchFrom fixture) (fetchFrom reversedFixture) "alias"
      rfl rfl rfl rfl rfl rfl rfl rfl rfl rfl⟩

end ShowClient
